import Mathlib

/-!
Verification development for the GuitarBuilder cut pipeline
(`src/textured_cut.py`, `src/setup_scene.py`).

The Blender host is modelled shallowly:

* a scene is a list of named objects (`Scene`); Blender keeps object names
  unique, renaming a newly named object with a numeric suffix (".001", ...)
  when the requested name is taken — modelled by `freshName`;
* object identity is modelled by a numeric `id` (standing for the Python
  object reference); fresh objects get `maxId s + 1`;
* the geometry kernel (boolean solvers, displacement, healing, ...) is an
  external collaborator and is abstracted as a `Kernel` record of mesh
  transformers; meshes are abstracted to their vertex count and dimension
  triple, which is all the pipeline inspects;
* selection-state side effects of `bpy.ops.object.duplicate` (stray suffixed
  copies of still-selected objects, uniformly removed by `cleanup_debris`)
  are not modelled, nor are transforms/locations, which no claim observes.
-/

namespace GuitarBuilder

/-- A dimension triple (stand-in for Blender's `obj.dimensions` vector). -/
structure Vec3 where
  x : Int
  y : Int
  z : Int
deriving DecidableEq, Repr

/-- The part of a Blender mesh the pipeline inspects: the vertex count
(`len(obj.data.vertices)`) and the dimensions (`obj.dimensions`). -/
structure Mesh where
  verts : Nat
  dims : Vec3
deriving DecidableEq, Repr

/-- Blender object types, as far as the pipeline distinguishes them
(`obj.type == 'MESH'` or not). -/
inductive ObjType where
  | MESH : ObjType
  | OTHER : ObjType
deriving DecidableEq, Repr

/-- A scene object: a numeric identity (the Python object reference), the
current name, the type and the mesh data. -/
structure Obj where
  id : Nat
  name : String
  otype : ObjType
  mesh : Mesh
deriving DecidableEq, Repr

/-- A Blender scene: the list `bpy.data.objects`. -/
abbrev Scene := List Obj

/-- `bpy.data.objects.get name`. -/
def lookup (s : Scene) (n : String) : Option Obj :=
  s.find? (fun o => o.name == n)

/-- Whether some object in the scene currently holds the name `n`. -/
def nameTaken (s : Scene) (n : String) : Bool :=
  (lookup s n).isSome

/-- Largest object id in the scene (`0` for the empty scene); `maxId s + 1`
is therefore always a fresh identity. -/
def maxId (s : Scene) : Nat :=
  s.foldr (fun o m => max o.id m) 0

/-- Concatenation of every name in the scene; only used to build the
(unreachable) fallback of `freshName`, which is fresh by a length argument. -/
def joinNames (s : Scene) : String :=
  s.foldr (fun o acc => o.name ++ acc) ""

/-- Blender's three-digit numeric suffixes: 1 ↦ "001", 23 ↦ "023", .... -/
def pad3 (k : Nat) : String :=
  (if k < 10 then "00" else if k < 100 then "0" else "") ++ toString k

/-- The k-th candidate name Blender tries: the base name itself for `k = 0`,
then "name.001", "name.002", .... -/
def suffixName (n : String) (k : Nat) : String :=
  if k == 0 then n else n ++ "." ++ pad3 k

/-- Blender's unique-name discipline: assigning a name picks the first
candidate (`n`, `n.001`, `n.002`, ...) not currently taken.  Searching
`s.length + 2` candidates always succeeds; the fallback is never reached and
is chosen longer than every present name so that it is fresh as well. -/
def freshName (s : Scene) (n : String) : String :=
  match (List.range (s.length + 2)).find? (fun k => !nameTaken s (suffixName n k)) with
  | some k => suffixName n k
  | none => n ++ "." ++ joinNames s

/-- The name an object with identity `i` would receive when asked to take
name `n` (fresh with respect to every other object). -/
def renamedName (s : Scene) (i : Nat) (n : String) : String :=
  freshName (s.filter (fun o => !(o.id == i))) n

/-- `obj.name = n` on the object with identity `i`: Blender gives the object
the requested name, numerically suffixed if another object holds it. -/
def renameId (s : Scene) (i : Nat) (n : String) : Scene :=
  match s.find? (fun o => o.id == i) with
  | none => s
  | some _ => s.map (fun o => if o.id == i then { o with name := renamedName s i n } else o)

/-- `bpy.data.objects.remove(obj, do_unlink=True)` for the object with
identity `i`. -/
def removeId (s : Scene) (i : Nat) : Scene :=
  s.filter (fun o => !(o.id == i))

/-- Replace the mesh of the object with identity `i` (the net effect of
applying a modifier to it). -/
def setMesh (s : Scene) (i : Nat) (m : Mesh) : Scene :=
  s.map (fun o => if o.id == i then { o with mesh := m } else o)

/-- `textured_cut.py` lines 333-339: look the name up and force-delete the
object currently holding it, if any. -/
def removeHolder (s : Scene) (n : String) : Scene :=
  match lookup s n with
  | some o => removeId s o.id
  | none => s

/-- Substring test on strings (Python's `".00" in obj.name`). -/
def hasSubstr (s pat : String) : Bool :=
  (List.range (s.toList.length + 1)).any (fun i => pat.toList.isPrefixOf (s.toList.drop i))

/-- `cleanup_debris` (lines 473-495): an object is debris when its name
starts with "Cutter_Tool" or "Auto_Cutter", ends with "_Processed", or
contains ".00". -/
def isDebrisName (n : String) : Bool :=
  n.toList.take 11 == "Cutter_Tool".toList ||
  n.toList.take 11 == "Auto_Cutter".toList ||
  "_Processed".toList.reverse.isPrefixOf n.toList.reverse ||
  hasSubstr n ".00"

/-- `cleanup_debris()` (lines 473-495): sweep every debris-named object. -/
def cleanup_debris (s : Scene) : Scene :=
  s.filter (fun o => !(isDebrisName o.name))

/-- The two boolean operations used by the pipeline. -/
inductive BoolOp where
  | DIFFERENCE : BoolOp
  | INTERSECT : BoolOp
deriving DecidableEq, Repr

/-- The two boolean solver tiers (`mod.solver`): 'EXACT' and 'FLOAT'. -/
inductive Solver where
  | EXACT : Solver
  | FLOAT : Solver
deriving DecidableEq, Repr

/-- The external geometry kernel (Blender's modifier stack), §6 of the spec:
consumed, not implemented.  `booleanOp op solver target tool` is the mesh
produced by applying the boolean modifier; `synthTool` is the composite of
subdivision, displacement, solidify, triangulation applied to the duplicated
cutter plane (lines 61-117); `precondition` the target healing (119-152);
`postprocess` the triangulate/merge/normals pass on parts (268-291). -/
structure Kernel where
  synthTool : Mesh → Mesh
  precondition : Mesh → Mesh
  booleanOp : BoolOp → Solver → Mesh → Mesh → Mesh
  postprocess : Mesh → Mesh

/-- Result of `perform_robust_boolean`: the updated scene, the identity of
the produced part object, its mesh, the solver that produced it, and the
sequence of boolean-solver invocations made (for order-of-computation
claims). -/
structure PrbResult where
  scene : Scene
  partId : Nat
  mesh : Mesh
  usedSolver : Solver
  trace : List (BoolOp × Solver)

/-- `perform_robust_boolean(target_original, tool, op_name, part_name)`
(lines 174-233): duplicate the target, rename the duplicate to `part_name`,
apply the EXACT boolean; if the result has vertices return it, otherwise
delete the attempt, duplicate the target again and retry with the FLOAT
solver, returning that result (even if empty).  `τ` is the Python reference
to the target object (current name, type, mesh). -/
def perform_robust_boolean (kern : Kernel) (s : Scene) (τ : Obj) (toolM : Mesh)
    (op : BoolOp) (partName : String) : PrbResult :=
  let tm := τ.mesh
  let r1 := kern.booleanOp op Solver.EXACT tm toolM
  let d1 := maxId s + 1
  let s1 := s ++ [{ τ with id := d1, name := freshName s τ.name }]
  let s2 := renameId s1 d1 partName
  let s3 := setMesh s2 d1 r1
  if r1.verts > 0 then
    ⟨s3, d1, r1, Solver.EXACT, [(op, Solver.EXACT)]⟩
  else
    let s4 := removeId s3 d1
    let r2 := kern.booleanOp op Solver.FLOAT tm toolM
    let d2 := maxId s4 + 1
    let s5 := s4 ++ [{ τ with id := d2, name := freshName s4 τ.name }]
    let s6 := renameId s5 d2 partName
    ⟨setMesh s6 d2 r2, d2, r2, Solver.FLOAT, [(op, Solver.EXACT), (op, Solver.FLOAT)]⟩

/-- Result of `create_textured_cut`: the scene, whether the operator
finished (vs. was cancelled), and the boolean-solver invocation trace. -/
structure CtcResult where
  scene : Scene
  ok : Bool
  trace : List (BoolOp × Solver)

/-- Main body of `create_textured_cut` for the single selected target, after
the cutter/target validation (lines 49-367).  `cutter` and `t` are the
Python references to the active cutter plane and the target. -/
def ctc_body (kern : Kernel) (rid : Nat) (s : Scene) (cutter t : Obj)
    (pA pB : String) : CtcResult :=
  let d := maxId s + 1
  let s1 := s ++ [{ cutter with id := d, name := freshName s cutter.name }]
  let s2 := renameId s1 d "Cutter_Tool_Temp"
  let toolM := kern.synthTool cutter.mesh
  let s3 := setMesh s2 d toolM
  let pm := kern.precondition t.mesh
  let s4 := setMesh s3 t.id pm
  let tP := { t with mesh := pm }
  let rB := perform_robust_boolean kern s4 tP toolM BoolOp.INTERSECT pB
  let nP := renamedName rB.scene t.id (t.name ++ "_Processed")
  let s5 := renameId rB.scene t.id (t.name ++ "_Processed")
  let tQ := { tP with name := nP }
  let rA := perform_robust_boolean kern s5 tQ toolM BoolOp.DIFFERENCE pA
  let s6 := if rA.mesh.verts > 0 then setMesh rA.scene rA.partId (kern.postprocess rA.mesh) else rA.scene
  let s7 := if rB.mesh.verts > 0 then setMesh s6 rB.partId (kern.postprocess rB.mesh) else s6
  let s8 := renameId s7 rA.partId ("Temp_Part_A_" ++ toString rid)
  let s9 := renameId s8 rB.partId ("Temp_Part_B_" ++ toString rid)
  let s10 := removeHolder s9 pA
  let s11 := removeHolder s10 pB
  let s12 := renameId s11 rA.partId pA
  let s13 := renameId s12 rB.partId pB
  let s14 := removeId s13 t.id
  let s15 := removeId s14 d
  ⟨s15, true, rB.trace ++ rA.trace⟩

/-- `create_textured_cut(part_a_name, part_b_name, solidify_offset)`
(lines 23-367), for the invocation pattern of `cut`: the active object is
the cutter plane with identity `cid`, the one selected target has identity
`tid`.  The validation mirrors lines 35-47: the active object must be a
mesh, and there must be a selected mesh target distinct from the cutter. -/
def create_textured_cut (kern : Kernel) (rid : Nat) (s : Scene)
    (cid tid : Nat) (pA pB : String) : CtcResult :=
  match s.find? (fun o => o.id == cid) with
  | none => ⟨s, false, []⟩
  | some cutter =>
    if cutter.otype ≠ ObjType.MESH then ⟨s, false, []⟩
    else
      match s.find? (fun o => o.id == tid) with
      | none => ⟨s, false, []⟩
      | some t =>
        if tid = cid ∨ t.otype ≠ ObjType.MESH then ⟨s, false, []⟩
        else ctc_body kern rid s cutter t pA pB

/-- `cut(target_name, location, rotation_deg, part1_name, part2_name,
solidify_offset)` (lines 369-470).  `cutterMesh` abstracts the generated,
scaled and rotated plane primitive.  Validation (377-389): the target must
exist, be a mesh and be non-empty, otherwise return `False` with the scene
untouched.  Afterwards: add the "Auto_Cutter" plane, run
`create_textured_cut`, remove the auto-cutter, sweep debris, and verify the
two named parts exist and are non-empty. -/
def cut (kern : Kernel) (rid : Nat) (cutterMesh : Mesh) (s : Scene)
    (target_name pA pB : String) : Scene × Bool :=
  match lookup s target_name with
  | none => (s, false)
  | some t =>
    if t.otype ≠ ObjType.MESH then (s, false)
    else if t.mesh.verts == 0 then (s, false)
    else
      let cid := maxId s + 1
      let s1 := s ++ [⟨cid, freshName s "Auto_Cutter", ObjType.MESH, cutterMesh⟩]
      let r := create_textured_cut kern rid s1 cid t.id pA pB
      let s2 := removeId r.scene cid
      let s3 := cleanup_debris s2
      match lookup s3 pA, lookup s3 pB with
      | some p1, some p2 =>
        if p1.mesh.verts == 0 then (s3, false)
        else if p2.mesh.verts == 0 then (s3, false)
        else (s3, true)
      | some _, none => (s3, false)
      | none, _ => (s3, false)

/-- One cut specification of the decomposition sequence in
`setup_scene.py` (lines 413-444). -/
structure CutSpec where
  target : String
  part1 : String
  part2 : String
deriving DecidableEq, Repr

/-- The fail-fast cut sequencing of `setup_scene` (lines 413-444): run each
cut in order; on the first `cut` returning `False`, stop (the source prints
the error and returns).  Each list entry carries the per-cut random id and
cutter mesh.  Returns the final scene, overall success, and how many cuts
were executed. -/
def runCuts (kern : Kernel) : Scene → List (CutSpec × Nat × Mesh) → Scene × Bool × Nat
  | s, [] => (s, true, 0)
  | s, (c, rid, cm) :: rest =>
    match cut kern rid cm s c.target c.part1 c.part2 with
    | (s', true) =>
      match runCuts kern s' rest with
      | (s'', ok, k) => (s'', ok, k + 1)
    | (s', false) => (s', false, 1)

/-- The scene-prefix runner: `runFirst s items = some s'` when every cut in
`items` succeeds in order, threading the scene. -/
def runFirst (kern : Kernel) : Scene → List (CutSpec × Nat × Mesh) → Option Scene
  | s, [] => some s
  | s, (c, rid, cm) :: rest =>
    match cut kern rid cm s c.target c.part1 c.part2 with
    | (s', true) => runFirst kern s' rest
    | (_, false) => none

/-- The literal 7-cut decomposition sequence of `setup_scene.py`
(lines 413-444). -/
def guitarCutSpecs : List CutSpec :=
  [⟨"Guitar_Body", "Guitar_Top", "Guitar_Bottom"⟩,
   ⟨"Guitar_Bottom", "Guitar_Bot_Left", "Guitar_Bot_Right"⟩,
   ⟨"Guitar_Top", "Guitar_Middle_Right", "Guitar_Left"⟩,
   ⟨"Guitar_Middle_Right", "Guitar_Middle", "Guitar_Right"⟩,
   ⟨"Guitar_Left", "Guitar_Top_Left", "Guitar_Mid_Left"⟩,
   ⟨"Guitar_Right", "Guitar_Top_Right", "Guitar_Mid_Right"⟩,
   ⟨"Guitar_Middle", "Guitar_Top_Mid", "Guitar_Mid"⟩]

/-- Source line 95: `mod_solid.thickness = 50.0` — the solidify thickness of
the cutting tool is a fixed constant, whatever the target's extent is (the
argument is ignored; the comment in the source reads "Clean value (Guitar is
~30mm)"). -/
def solidifyThicknessFor (_targetExtent : ℚ) : ℚ := 50

/-- Well-formedness of a scene as Blender maintains it: object references
are distinct and names are unique. -/
def WF (s : Scene) : Prop :=
  (s.map (fun o => o.id)).Nodup ∧ (s.map (fun o => o.name)).Nodup

/-- The mesh `perform_robust_boolean` produces for a target mesh `tm`: the
EXACT result when non-empty, otherwise the FLOAT result. -/
def prbMesh (kern : Kernel) (op : BoolOp) (tm toolM : Mesh) : Mesh :=
  let r1 := kern.booleanOp op Solver.EXACT tm toolM
  if r1.verts > 0 then r1 else kern.booleanOp op Solver.FLOAT tm toolM

/-- The solver tier that ends up being used. -/
def prbSolver (kern : Kernel) (op : BoolOp) (tm toolM : Mesh) : Solver :=
  if (kern.booleanOp op Solver.EXACT tm toolM).verts > 0 then Solver.EXACT else Solver.FLOAT

/-- The solver-invocation trace of one robust boolean. -/
def prbTrace (kern : Kernel) (op : BoolOp) (tm toolM : Mesh) : List (BoolOp × Solver) :=
  if (kern.booleanOp op Solver.EXACT tm toolM).verts > 0 then [(op, Solver.EXACT)]
  else [(op, Solver.EXACT), (op, Solver.FLOAT)]

/-- Post-processing applied to a part when (and only when) it is
non-empty (lines 268-291). -/
def postIf (kern : Kernel) (m : Mesh) : Mesh :=
  if m.verts > 0 then kern.postprocess m else m

/-- Closed form of the mesh that ends up under `part_a_name`: the
DIFFERENCE of the healed target against the synthesized tool, with solver
fallback and post-processing. -/
def partAMeshOf (kern : Kernel) (cutterMesh targetMesh : Mesh) : Mesh :=
  postIf kern (prbMesh kern BoolOp.DIFFERENCE (kern.precondition targetMesh)
    (kern.synthTool cutterMesh))

/-- Closed form of the mesh that ends up under `part_b_name`: the INTERSECT
of the healed target against the synthesized tool, with solver fallback and
post-processing. -/
def partBMeshOf (kern : Kernel) (cutterMesh targetMesh : Mesh) : Mesh :=
  postIf kern (prbMesh kern BoolOp.INTERSECT (kern.precondition targetMesh)
    (kern.synthTool cutterMesh))

/-- A concrete well-behaved kernel for witnesses: every boolean returns a
4-vertex mesh with dimensions (1,1,1). -/
def kernelW : Kernel where
  synthTool := fun m => m
  precondition := fun m => m
  booleanOp := fun _ _ _ _ => ⟨4, ⟨1, 1, 1⟩⟩
  postprocess := fun m => m

/-- A concrete kernel whose EXACT solver silently fails by returning the
full input (non-empty, dimensionally identical to the target). -/
def kernelFull : Kernel where
  synthTool := fun m => m
  precondition := fun m => m
  booleanOp := fun _ sv tm _ => if sv = Solver.EXACT then tm else ⟨4, ⟨1, 1, 1⟩⟩
  postprocess := fun m => m

/-- An 8-vertex target mesh with dimensions (2,2,2). -/
def meshT : Mesh := ⟨8, ⟨2, 2, 2⟩⟩

/-- A cutter-plane mesh. -/
def meshC : Mesh := ⟨4, ⟨3, 3, 3⟩⟩

/-- A one-object scene holding the target "T". -/
def sceneT : Scene := [⟨1, "T", ObjType.MESH, meshT⟩]

/-- A scene holding the target "T" and a stale object already holding the
final name "A". -/
def sceneStale : Scene := [⟨1, "T", ObjType.MESH, meshT⟩, ⟨2, "A", ObjType.MESH, meshT⟩]

end GuitarBuilder

namespace GuitarBuilder

/-! ### Basic facts about scene primitives -/

theorem maxId_cons (a : Obj) (l : Scene) : maxId (a :: l) = max a.id (maxId l) := rfl

theorem maxId_append (xs ys : Scene) : maxId (xs ++ ys) = max (maxId xs) (maxId ys) := by
  induction xs with
  | nil => simp [maxId]
  | cons a l ih => simp [maxId_cons, ih, Nat.max_assoc]

theorem le_maxId {o : Obj} {s : Scene} (h : o ∈ s) : o.id ≤ maxId s := by
  induction s with
  | nil => cases h
  | cons a l ih =>
    rcases List.mem_cons.mp h with rfl | h
    · simp [maxId_cons]
    · have := ih h
      simp [maxId_cons]
      omega

theorem id_ne_succ_maxId {o : Obj} {s : Scene} (h : o ∈ s) : o.id ≠ maxId s + 1 := by
  have := le_maxId h
  omega

theorem lookup_some {s : Scene} {n : String} {o : Obj} (h : lookup s n = some o) :
    o ∈ s ∧ o.name = n := by
  refine ⟨List.mem_of_find?_eq_some h, ?_⟩
  have := List.find?_some h
  simpa using this

theorem lookup_none_iff {s : Scene} {n : String} :
    lookup s n = none ↔ ∀ o ∈ s, o.name ≠ n := by
  simp [lookup, List.find?_eq_none]

theorem nameTaken_false_iff {s : Scene} {n : String} :
    nameTaken s n = false ↔ lookup s n = none := by
  cases h : lookup s n <;> simp [nameTaken, h]

theorem nameTaken_false_forall {s : Scene} {n : String} :
    nameTaken s n = false ↔ ∀ o ∈ s, o.name ≠ n := by
  rw [nameTaken_false_iff, lookup_none_iff]

theorem map_eq_self_of {l : List Obj} {f : Obj → Obj} (h : ∀ o ∈ l, f o = o) :
    l.map f = l := by
  induction l with
  | nil => rfl
  | cons a t ih =>
    simp only [List.map_cons, h a (List.mem_cons_self a t),
      ih (fun o ho => h o (List.mem_cons_of_mem a ho))]

theorem name_length_le_joinNames {o : Obj} {s : Scene} (h : o ∈ s) :
    o.name.length ≤ (joinNames s).length := by
  induction s with
  | nil => cases h
  | cons a l ih =>
    have hj : joinNames (a :: l) = a.name ++ joinNames l := rfl
    rcases List.mem_cons.mp h with rfl | h
    · simp [hj]
    · have := ih h
      simp [hj]
      omega

theorem suffixName_zero (n : String) : suffixName n 0 = n := rfl

theorem freshName_of_not_taken {s : Scene} {n : String} (h : nameTaken s n = false) :
    freshName s n = n := by
  unfold freshName
  have h0 : (List.range (s.length + 2)).find?
      (fun k => !nameTaken s (suffixName n k)) = some 0 := by
    have h2 : s.length + 2 = (s.length + 1) + 1 := rfl
    rw [h2, List.range_succ_eq_map]
    apply List.find?_cons_of_pos
    simp [suffixName_zero, h]
  rw [h0]
  rfl

theorem length_le_freshName (s : Scene) (n : String) :
    n.length ≤ (freshName s n).length := by
  unfold freshName
  rcases hfind : (List.range (s.length + 2)).find?
      (fun k => !nameTaken s (suffixName n k)) with _ | k
  · simp [String.length_append]
    omega
  · by_cases hk : k = 0
    · simp [hk, suffixName_zero]
    · have hsf : suffixName n k = n ++ "." ++ pad3 k := by
        unfold suffixName
        simp [hk]
      simp [hsf, String.length_append]
      omega

theorem freshName_not_taken (s : Scene) (n : String) :
    nameTaken s (freshName s n) = false := by
  unfold freshName
  rcases hfind : (List.range (s.length + 2)).find?
      (fun k => !nameTaken s (suffixName n k)) with _ | k
  · rw [nameTaken_false_forall]
    intro o ho heq
    have h1 := name_length_le_joinNames ho
    have h2 : o.name.length = (n ++ "." ++ joinNames s).length := by rw [heq]
    have h3 : ("." : String).length = 1 := rfl
    simp [String.length_append, h3] at h2
    omega
  · have hp := List.find?_some hfind
    simpa using hp

theorem freshName_mem_ne {s : Scene} {n : String} {o : Obj} (h : o ∈ s) :
    o.name ≠ freshName s n := by
  have := freshName_not_taken s n
  rw [nameTaken_false_forall] at this
  exact this o h


/-! ### Positional characterizations of the scene operations -/

theorem renameId_not_found {s : Scene} {i : Nat} {n : String}
    (h : s.find? (fun o => o.id == i) = none) : renameId s i n = s := by
  unfold renameId
  rw [h]

theorem renameId_found {s : Scene} {i : Nat} {n : String} {a : Obj}
    (h : s.find? (fun o => o.id == i) = some a) :
    renameId s i n
      = s.map (fun o => if o.id == i then { o with name := renamedName s i n } else o) := by
  unfold renameId
  rw [h]

theorem find?_id_append_right {xs : Scene} {b : Obj} (h : ∀ o ∈ xs, o.id ≠ b.id)
    (ys : Scene) :
    (xs ++ b :: ys).find? (fun o => o.id == b.id) = some b := by
  rw [List.find?_append]
  have h1 : xs.find? (fun o => o.id == b.id) = none := by
    rw [List.find?_eq_none]
    intro x hx
    simpa using h x hx
  rw [h1]
  simp

theorem filter_ne_id_eq_self {xs : Scene} {i : Nat} (h : ∀ o ∈ xs, o.id ≠ i) :
    xs.filter (fun o => !(o.id == i)) = xs := by
  rw [List.filter_eq_self]
  intro o ho
  simpa using h o ho

theorem renameId_append_mid (xs ys : Scene) (b : Obj) (n : String)
    (h1 : ∀ o ∈ xs, o.id ≠ b.id) (h2 : ∀ o ∈ ys, o.id ≠ b.id) :
    renameId (xs ++ b :: ys) b.id n
      = xs ++ { b with name := freshName (xs ++ ys) n } :: ys := by
  rw [renameId_found (find?_id_append_right h1 ys)]
  have hctx : renamedName (xs ++ b :: ys) b.id n = freshName (xs ++ ys) n := by
    unfold renamedName
    congr 1
    rw [List.filter_append, filter_ne_id_eq_self h1, List.filter_cons]
    simp [filter_ne_id_eq_self h2]
  rw [hctx, List.map_append]
  congr 1
  · exact map_eq_self_of (fun o ho => by simp [h1 o ho])
  · simp only [List.map_cons]
    congr 1
    · simp
    · exact map_eq_self_of (fun o ho => by simp [h2 o ho])

theorem setMesh_append_mid (xs ys : Scene) (b : Obj) (m : Mesh)
    (h1 : ∀ o ∈ xs, o.id ≠ b.id) (h2 : ∀ o ∈ ys, o.id ≠ b.id) :
    setMesh (xs ++ b :: ys) b.id m = xs ++ { b with mesh := m } :: ys := by
  unfold setMesh
  rw [List.map_append]
  congr 1
  · exact map_eq_self_of (fun o ho => by simp [h1 o ho])
  · simp only [List.map_cons]
    congr 1
    · simp
    · exact map_eq_self_of (fun o ho => by simp [h2 o ho])

theorem setMesh_not_mem {s : Scene} {i : Nat} {m : Mesh} (h : ∀ o ∈ s, o.id ≠ i) :
    setMesh s i m = s :=
  map_eq_self_of (fun o ho => by simp [h o ho])

theorem removeId_append (xs ys : Scene) (i : Nat) :
    removeId (xs ++ ys) i = removeId xs i ++ removeId ys i := by
  unfold removeId
  exact List.filter_append _ _

theorem removeId_not_mem {s : Scene} {i : Nat} (h : ∀ o ∈ s, o.id ≠ i) :
    removeId s i = s :=
  filter_ne_id_eq_self h

theorem removeId_append_mid (xs ys : Scene) (b : Obj)
    (h1 : ∀ o ∈ xs, o.id ≠ b.id) (h2 : ∀ o ∈ ys, o.id ≠ b.id) :
    removeId (xs ++ b :: ys) b.id = xs ++ ys := by
  unfold removeId
  rw [List.filter_append, filter_ne_id_eq_self h1, List.filter_cons]
  simp [filter_ne_id_eq_self h2]

theorem mem_removeId {o : Obj} {s : Scene} {i : Nat} :
    o ∈ removeId s i ↔ o ∈ s ∧ o.id ≠ i := by
  simp [removeId, List.mem_filter]

/-! ### Collapsed form of `perform_robust_boolean` -/

theorem prb_eq (kern : Kernel) (s : Scene) (τ : Obj) (toolM : Mesh)
    (op : BoolOp) (pn : String) :
    perform_robust_boolean kern s τ toolM op pn =
      ⟨s ++ [⟨maxId s + 1, freshName s pn, τ.otype, prbMesh kern op τ.mesh toolM⟩],
       maxId s + 1, prbMesh kern op τ.mesh toolM,
       prbSolver kern op τ.mesh toolM, prbTrace kern op τ.mesh toolM⟩ := by
  have hids : ∀ o ∈ s, o.id ≠ maxId s + 1 := fun o ho => id_ne_succ_maxId ho
  have hdup : ∀ (nm : String),
      (s ++ [{ τ with id := maxId s + 1, name := nm }]) =
      (s ++ { τ with id := maxId s + 1, name := nm } :: []) := by
    intro nm
    rfl
  unfold perform_robust_boolean
  by_cases h : (kern.booleanOp op Solver.EXACT τ.mesh toolM).verts > 0
  · simp only [h, if_pos]
    have e1 : renameId (s ++ [{ τ with id := maxId s + 1, name := freshName s τ.name }])
        (maxId s + 1) pn
        = s ++ [{ τ with id := maxId s + 1, name := freshName s pn }] := by
      rw [hdup, show maxId s + 1 = ({ τ with id := maxId s + 1, name := freshName s τ.name } : Obj).id from rfl]
      rw [renameId_append_mid s [] _ pn hids (by simp)]
      simp
    rw [e1]
    have e2 : setMesh (s ++ [{ τ with id := maxId s + 1, name := freshName s pn }])
        (maxId s + 1) (kern.booleanOp op Solver.EXACT τ.mesh toolM)
        = s ++ [⟨maxId s + 1, freshName s pn, τ.otype, kern.booleanOp op Solver.EXACT τ.mesh toolM⟩] := by
      rw [hdup, show maxId s + 1 = ({ τ with id := maxId s + 1, name := freshName s pn } : Obj).id from rfl]
      rw [setMesh_append_mid s [] _ _ hids (by simp)]
    rw [e2]
    simp [prbMesh, prbSolver, prbTrace, h]
  · simp only [h, if_neg, not_false_iff]
    have e1 : renameId (s ++ [{ τ with id := maxId s + 1, name := freshName s τ.name }])
        (maxId s + 1) pn
        = s ++ [{ τ with id := maxId s + 1, name := freshName s pn }] := by
      rw [hdup, show maxId s + 1 = ({ τ with id := maxId s + 1, name := freshName s τ.name } : Obj).id from rfl]
      rw [renameId_append_mid s [] _ pn hids (by simp)]
      simp
    rw [e1]
    have e2 : setMesh (s ++ [{ τ with id := maxId s + 1, name := freshName s pn }])
        (maxId s + 1) (kern.booleanOp op Solver.EXACT τ.mesh toolM)
        = s ++ [⟨maxId s + 1, freshName s pn, τ.otype, kern.booleanOp op Solver.EXACT τ.mesh toolM⟩] := by
      rw [hdup, show maxId s + 1 = ({ τ with id := maxId s + 1, name := freshName s pn } : Obj).id from rfl]
      rw [setMesh_append_mid s [] _ _ hids (by simp)]
    rw [e2]
    have e3 : removeId (s ++ [(⟨maxId s + 1, freshName s pn, τ.otype,
        kern.booleanOp op Solver.EXACT τ.mesh toolM⟩ : Obj)]) (maxId s + 1) = s := by
      rw [removeId_append]
      rw [removeId_not_mem hids]
      simp [removeId]
    rw [e3]
    have e4 : renameId (s ++ [{ τ with id := maxId s + 1, name := freshName s τ.name }])
        (maxId s + 1) pn
        = s ++ [{ τ with id := maxId s + 1, name := freshName s pn }] := e1
    rw [e4]
    have e5 : setMesh (s ++ [{ τ with id := maxId s + 1, name := freshName s pn }])
        (maxId s + 1) (kern.booleanOp op Solver.FLOAT τ.mesh toolM)
        = s ++ [⟨maxId s + 1, freshName s pn, τ.otype, kern.booleanOp op Solver.FLOAT τ.mesh toolM⟩] := by
      rw [hdup, show maxId s + 1 = ({ τ with id := maxId s + 1, name := freshName s pn } : Obj).id from rfl]
      rw [setMesh_append_mid s [] _ _ hids (by simp)]
    rw [e5]
    simp [prbMesh, prbSolver, prbTrace, h]


/-! ### Well-formedness (unique ids, unique names) and its preservation -/

theorem ids_renameId (s : Scene) (i : Nat) (n : String) :
    (renameId s i n).map (fun o => o.id) = s.map (fun o => o.id) := by
  unfold renameId
  cases s.find? (fun o => o.id == i) with
  | none => rfl
  | some a =>
    rw [List.map_map]
    apply List.map_congr_left
    intro o _
    by_cases h : o.id = i <;> simp [h]

theorem ids_setMesh (s : Scene) (i : Nat) (m : Mesh) :
    (setMesh s i m).map (fun o => o.id) = s.map (fun o => o.id) := by
  unfold setMesh
  rw [List.map_map]
  apply List.map_congr_left
  intro o _
  by_cases h : o.id = i <;> simp [h]

theorem names_setMesh (s : Scene) (i : Nat) (m : Mesh) :
    (setMesh s i m).map (fun o => o.name) = s.map (fun o => o.name) := by
  unfold setMesh
  rw [List.map_map]
  apply List.map_congr_left
  intro o _
  by_cases h : o.id = i <;> simp [h]

theorem nodup_names_guarded_map {s : Scene} {i : Nat} {nm : String}
    (hids : (s.map (fun o => o.id)).Nodup)
    (hnames : (s.map (fun o => o.name)).Nodup)
    (hfresh : ∀ o ∈ s, o.id ≠ i → o.name ≠ nm) :
    (s.map (fun o => if o.id == i then nm else o.name)).Nodup := by
  induction s with
  | nil => simp
  | cons a l ih =>
    simp only [List.map_cons, List.nodup_cons] at hids hnames ⊢
    obtain ⟨hia, hil⟩ := hids
    obtain ⟨hna, hnl⟩ := hnames
    refine ⟨?_, ih hil hnl (fun o ho h => hfresh o (List.mem_cons_of_mem a ho) h)⟩
    intro hmem
    obtain ⟨b, hb, hgb⟩ := List.mem_map.mp hmem
    by_cases ha : a.id = i
    · have hbid : b.id ≠ i := by
        intro hbi
        exact hia (List.mem_map.mpr ⟨b, hb, by rw [hbi, ha]⟩)
      simp only [ha, hbid, beq_iff_eq, if_true, if_false, if_neg, not_false_iff] at hgb
      exact hfresh b (List.mem_cons_of_mem a hb) hbid hgb
    · by_cases hbid : b.id = i
      · simp only [ha, hbid, beq_iff_eq, if_true, if_false, if_neg, not_false_iff] at hgb
        exact hfresh a (List.mem_cons_self a l) ha hgb.symm
      · simp only [ha, hbid, beq_iff_eq, if_false, if_neg, not_false_iff] at hgb
        exact hna (List.mem_map.mpr ⟨b, hb, hgb⟩)

theorem WF_renameId {s : Scene} {i : Nat} {n : String} (h : WF s) : WF (renameId s i n) := by
  obtain ⟨hids, hnames⟩ := h
  refine ⟨by rw [ids_renameId]; exact hids, ?_⟩
  unfold renameId
  cases hf : s.find? (fun o => o.id == i) with
  | none => exact hnames
  | some a =>
    have hmapeq : (s.map (fun o => if o.id == i then { o with name := renamedName s i n } else o)).map
        (fun o => o.name) = s.map (fun o => if o.id == i then renamedName s i n else o.name) := by
      rw [List.map_map]
      apply List.map_congr_left
      intro o _
      by_cases hc : o.id = i <;> simp [hc]
    rw [hmapeq]
    apply nodup_names_guarded_map hids hnames
    intro o ho hne
    have homem : o ∈ s.filter (fun o => !(o.id == i)) :=
      List.mem_filter.mpr ⟨ho, by simpa using hne⟩
    exact freshName_mem_ne homem

theorem WF_setMesh {s : Scene} {i : Nat} {m : Mesh} (h : WF s) : WF (setMesh s i m) :=
  ⟨by rw [ids_setMesh]; exact h.1, by rw [names_setMesh]; exact h.2⟩

theorem WF_removeId {s : Scene} {i : Nat} (h : WF s) : WF (removeId s i) := by
  have hsub : List.Sublist (removeId s i) s := List.filter_sublist s
  exact ⟨List.Nodup.sublist (List.Sublist.map (fun o => o.id) hsub) h.1,
    List.Nodup.sublist (List.Sublist.map (fun o => o.name) hsub) h.2⟩

theorem WF_append_one {s : Scene} {b : Obj} (h : WF s)
    (hid : ∀ o ∈ s, o.id ≠ b.id) (hn : nameTaken s b.name = false) : WF (s ++ [b]) := by
  obtain ⟨hids, hnames⟩ := h
  constructor
  · rw [List.map_append]
    simp only [List.map_cons, List.map_nil]
    rw [List.nodup_append]
    refine ⟨hids, List.nodup_singleton _, ?_⟩
    intro x hx hx2
    simp only [List.mem_singleton] at hx2
    obtain ⟨o, ho, rfl⟩ := List.mem_map.mp hx
    exact hid o ho (by rw [hx2])
  · rw [List.map_append]
    simp only [List.map_cons, List.map_nil]
    rw [List.nodup_append]
    refine ⟨hnames, List.nodup_singleton _, ?_⟩
    intro x hx hx2
    simp only [List.mem_singleton] at hx2
    obtain ⟨o, ho, rfl⟩ := List.mem_map.mp hx
    rw [nameTaken_false_forall] at hn
    exact hn o ho (by rw [hx2])

theorem obj_eq_of_name_eq {s : Scene} (hnames : (s.map (fun o => o.name)).Nodup)
    {o o' : Obj} (ho : o ∈ s) (ho' : o' ∈ s) (h : o.name = o'.name) : o = o' :=
  List.inj_on_of_nodup_map hnames ho ho' h

theorem obj_eq_of_id_eq {s : Scene} (hids : (s.map (fun o => o.id)).Nodup)
    {o o' : Obj} (ho : o ∈ s) (ho' : o' ∈ s) (h : o.id = o'.id) : o = o' :=
  List.inj_on_of_nodup_map hids ho ho' h

theorem lookup_eq_some_of_mem {s : Scene} (hnames : (s.map (fun o => o.name)).Nodup)
    {o : Obj} (ho : o ∈ s) : lookup s o.name = some o := by
  induction s with
  | nil => cases ho
  | cons a l ih =>
    simp only [List.map_cons, List.nodup_cons] at hnames
    rcases List.mem_cons.mp ho with rfl | hol
    · simp [lookup]
    · have hne : (a.name == o.name) = false := by
        rw [beq_eq_false_iff_ne]
        intro hcontra
        exact hnames.1 (List.mem_map.mpr ⟨o, hol, hcontra.symm⟩)
      unfold lookup at ih ⊢
      rw [List.find?_cons, hne]
      exact ih hnames.2 hol

theorem find?_id_eq_some_of_mem {s : Scene} (hids : (s.map (fun o => o.id)).Nodup)
    {o : Obj} (ho : o ∈ s) : s.find? (fun x => x.id == o.id) = some o := by
  induction s with
  | nil => cases ho
  | cons a l ih =>
    simp only [List.map_cons, List.nodup_cons] at hids
    rcases List.mem_cons.mp ho with rfl | hol
    · simp
    · have hne : (a.id == o.id) = false := by
        rw [beq_eq_false_iff_ne]
        intro hcontra
        exact hids.1 (List.mem_map.mpr ⟨o, hol, hcontra.symm⟩)
      rw [List.find?_cons, hne]
      exact ih hids.2 hol

theorem find?_id_eq_none {s : Scene} {i : Nat} (h : ∀ o ∈ s, o.id ≠ i) :
    s.find? (fun x => x.id == i) = none := by
  rw [List.find?_eq_none]
  intro x hx
  simpa using h x hx

theorem nameTaken_false_mono {s t : Scene} {n : String} (hsub : ∀ o ∈ t, o ∈ s)
    (h : nameTaken s n = false) : nameTaken t n = false := by
  rw [nameTaken_false_forall] at h ⊢
  exact fun o ho => h o (hsub o ho)

/-! ### Facts about `removeHolder` -/

theorem mem_of_mem_removeHolder {s : Scene} {n : String} {o : Obj}
    (h : o ∈ removeHolder s n) : o ∈ s := by
  unfold removeHolder at h
  cases hl : lookup s n with
  | none => rw [hl] at h; exact h
  | some y => rw [hl] at h; exact (mem_removeId.mp h).1

theorem WF_removeHolder {s : Scene} {n : String} (h : WF s) : WF (removeHolder s n) := by
  unfold removeHolder
  cases lookup s n with
  | none => exact h
  | some y => exact WF_removeId h

theorem nameTaken_removeHolder {s : Scene} {n : String}
    (hnames : (s.map (fun o => o.name)).Nodup) :
    nameTaken (removeHolder s n) n = false := by
  unfold removeHolder
  cases hl : lookup s n with
  | none => rw [nameTaken_false_iff]; exact hl
  | some y =>
    obtain ⟨hy, hyn⟩ := lookup_some hl
    rw [nameTaken_false_forall]
    intro o ho hon
    obtain ⟨hos, hoy⟩ := mem_removeId.mp ho
    exact hoy (by rw [obj_eq_of_name_eq hnames hos hy (by rw [hon, hyn])])

theorem mem_removeHolder_of_ne {s : Scene} {n : String} {o : Obj}
    (hids : (s.map (fun o => o.id)).Nodup) (ho : o ∈ s) (hne : o.name ≠ n) :
    o ∈ removeHolder s n := by
  unfold removeHolder
  cases hl : lookup s n with
  | none => exact ho
  | some y =>
    obtain ⟨hy, hyn⟩ := lookup_some hl
    refine mem_removeId.mpr ⟨ho, ?_⟩
    intro hidEq
    exact hne (by rw [obj_eq_of_id_eq hids ho hy hidEq, hyn])

theorem removeHolder_removes {s : Scene} {n : String} {x : Obj}
    (hnames : (s.map (fun o => o.name)).Nodup) (hx : x ∈ s) (hxn : x.name = n) :
    ∀ o ∈ removeHolder s n, o.id ≠ x.id := by
  intro o ho
  unfold removeHolder at ho
  have hl : lookup s n = some x := by
    rw [← hxn]
    exact lookup_eq_some_of_mem hnames hx
  rw [hl] at ho
  exact (mem_removeId.mp ho).2


/-! ### More auxiliary facts -/

theorem maxId_setMesh (s : Scene) (i : Nat) (m : Mesh) :
    maxId (setMesh s i m) = maxId s := by
  unfold setMesh
  induction s with
  | nil => rfl
  | cons a l ih =>
    simp only [List.map_cons, maxId_cons, ih]
    by_cases h : a.id = i <;> simp [h]

theorem maxId_map_guard_name (s : Scene) (i : Nat) (f : Obj → Obj)
    (hf : ∀ o, (f o).id = o.id) :
    maxId (s.map (fun o => if o.id == i then f o else o)) = maxId s := by
  induction s with
  | nil => rfl
  | cons a l ih =>
    simp only [List.map_cons, maxId_cons, ih]
    by_cases h : a.id = i <;> simp [h, hf]

theorem maxId_renameId (s : Scene) (i : Nat) (n : String) :
    maxId (renameId s i n) = maxId s := by
  unfold renameId
  cases s.find? (fun o => o.id == i) with
  | none => rfl
  | some a => exact maxId_map_guard_name s i _ (fun o => rfl)

theorem setMesh_append (xs ys : Scene) (i : Nat) (m : Mesh) :
    setMesh (xs ++ ys) i m = setMesh xs i m ++ setMesh ys i m := by
  unfold setMesh
  exact List.map_append _ xs ys

theorem nameTaken_append (xs ys : Scene) (n : String) :
    nameTaken (xs ++ ys) n = (nameTaken xs n || nameTaken ys n) := by
  unfold nameTaken lookup
  rw [List.find?_append]
  cases xs.find? (fun o => o.name == n) <;> simp

theorem nameTaken_cons (a : Obj) (l : Scene) (n : String) :
    nameTaken (a :: l) n = ((a.name == n) || nameTaken l n) := by
  unfold nameTaken lookup
  rw [List.find?_cons]
  cases h : (a.name == n) <;> simp [h]

theorem ids_le_of_maxId {s : Scene} {k : Nat} (h : maxId s ≤ k) :
    ∀ o ∈ s, o.id ≤ k :=
  fun _ ho => le_trans (le_maxId ho) h

end GuitarBuilder

namespace GuitarBuilder

set_option maxHeartbeats 1000000

theorem ctc_spec (kern : Kernel) (rid : Nat) (s : Scene) (cutter t : Obj)
    (pA pB : String)
    (hWF : WF s) (ht : t ∈ s)
    (hAB : pA ≠ pB) (hTA : t.name ≠ pA) (hTB : t.name ≠ pB) :
    WF (ctc_body kern rid s cutter t pA pB).scene ∧
    (∀ o ∈ (ctc_body kern rid s cutter t pA pB).scene, o.name ≠ t.name) ∧
    (∀ o ∈ (ctc_body kern rid s cutter t pA pB).scene, o.id ≠ t.id) ∧
    (∀ x ∈ s, (x.name = pA ∨ x.name = pB) →
      ∀ o ∈ (ctc_body kern rid s cutter t pA pB).scene, o.id ≠ x.id) ∧
    (lookup (ctc_body kern rid s cutter t pA pB).scene pA = none ∨
      ∃ a, lookup (ctc_body kern rid s cutter t pA pB).scene pA = some a ∧
        maxId s < a.id ∧ a.otype = t.otype ∧
        a.mesh = partAMeshOf kern cutter.mesh t.mesh) ∧
    (lookup (ctc_body kern rid s cutter t pA pB).scene pB = none ∨
      ∃ b, lookup (ctc_body kern rid s cutter t pA pB).scene pB = some b ∧
        maxId s < b.id ∧ b.otype = t.otype ∧
        b.mesh = partBMeshOf kern cutter.mesh t.mesh) ∧
    (ctc_body kern rid s cutter t pA pB).trace =
      prbTrace kern BoolOp.INTERSECT (kern.precondition t.mesh) (kern.synthTool cutter.mesh) ++
      prbTrace kern BoolOp.DIFFERENCE (kern.precondition t.mesh) (kern.synthTool cutter.mesh) := by
  have htle : t.id ≤ maxId s := le_maxId ht
  have hids0 : ∀ o ∈ s, o.id ≠ maxId s + 1 := fun o ho => id_ne_succ_maxId ho
  simp only [ctc_body]
  -- step 1: rename of the duplicated cutter to "Cutter_Tool_Temp"
  have e1 : renameId (s ++ [(⟨maxId s + 1, freshName s cutter.name, cutter.otype,
      cutter.mesh⟩ : Obj)]) (maxId s + 1) "Cutter_Tool_Temp"
      = s ++ [(⟨maxId s + 1, freshName s "Cutter_Tool_Temp", cutter.otype, cutter.mesh⟩ : Obj)] := by
    rw [show (s ++ [(⟨maxId s + 1, freshName s cutter.name, cutter.otype, cutter.mesh⟩ : Obj)])
        = s ++ (⟨maxId s + 1, freshName s cutter.name, cutter.otype, cutter.mesh⟩ : Obj) :: []
      from rfl]
    rw [show (maxId s + 1)
        = ((⟨maxId s + 1, freshName s cutter.name, cutter.otype, cutter.mesh⟩ : Obj)).id from rfl]
    rw [renameId_append_mid s [] _ _ hids0 (by simp)]
    simp
  rw [e1]
  -- step 2: bake the synthesized tool mesh
  have e2 : setMesh (s ++ [(⟨maxId s + 1, freshName s "Cutter_Tool_Temp", cutter.otype,
      cutter.mesh⟩ : Obj)]) (maxId s + 1) (kern.synthTool cutter.mesh)
      = s ++ [(⟨maxId s + 1, freshName s "Cutter_Tool_Temp", cutter.otype,
        kern.synthTool cutter.mesh⟩ : Obj)] := by
    rw [show (s ++ [(⟨maxId s + 1, freshName s "Cutter_Tool_Temp", cutter.otype,
        cutter.mesh⟩ : Obj)]) = s ++ (⟨maxId s + 1, freshName s "Cutter_Tool_Temp", cutter.otype,
        cutter.mesh⟩ : Obj) :: [] from rfl]
    rw [show (maxId s + 1) = ((⟨maxId s + 1, freshName s "Cutter_Tool_Temp", cutter.otype,
        cutter.mesh⟩ : Obj)).id from rfl]
    rw [setMesh_append_mid s [] _ _ hids0 (by simp)]
  rw [e2]
  -- step 3: heal the target in place (the tool is untouched)
  have e3 : setMesh (s ++ [(⟨maxId s + 1, freshName s "Cutter_Tool_Temp", cutter.otype,
      kern.synthTool cutter.mesh⟩ : Obj)]) t.id (kern.precondition t.mesh)
      = setMesh s t.id (kern.precondition t.mesh)
        ++ [(⟨maxId s + 1, freshName s "Cutter_Tool_Temp", cutter.otype,
          kern.synthTool cutter.mesh⟩ : Obj)] := by
    rw [setMesh_append]
    congr 1
    apply setMesh_not_mem
    intro o ho
    simp only [List.mem_singleton] at ho
    rw [ho]
    simp only []
    omega
  rw [e3]
  -- step 4: collapse the two robust booleans
  simp only [prb_eq]
  set pm := kern.precondition t.mesh with hpm
  set toolM := kern.synthTool cutter.mesh with htoolM
  set TT : Obj := (⟨maxId s + 1, freshName s "Cutter_Tool_Temp", cutter.otype, toolM⟩ : Obj)
    with hTT
  set sP := setMesh s t.id pm with hsP
  have hm1 : maxId (sP ++ [TT]) = maxId s + 1 := by
    rw [hsP, maxId_append, maxId_setMesh, hTT]
    simp [maxId_cons, maxId]
  rw [hm1]
  set mBI := prbMesh kern BoolOp.INTERSECT pm toolM with hmBI
  set mAD := prbMesh kern BoolOp.DIFFERENCE pm toolM with hmAD
  set nB := freshName (sP ++ [TT]) pB with hnB
  set B0 : Obj := (⟨maxId s + 1 + 1, nB, t.otype, mBI⟩ : Obj) with hB0
  -- the healed target object inside sP
  have hTTid : TT.id = maxId s + 1 := rfl
  have hB0id : B0.id = maxId s + 1 + 1 := rfl
  set tP : Obj := (⟨t.id, t.name, t.otype, pm⟩ : Obj) with htP
  have htP_mem : tP ∈ sP := by
    rw [hsP]
    unfold setMesh
    refine List.mem_map.mpr ⟨t, ht, ?_⟩
    simp [htP]
  have hidsP : (sP.map (fun o => o.id)).Nodup := by
    rw [hsP, ids_setMesh]
    exact hWF.1
  have hfindP : sP.find? (fun o => o.id == t.id) = some tP := by
    have h := find?_id_eq_some_of_mem hidsP htP_mem
    simpa [htP] using h
  have hfind5 : (sP ++ [TT] ++ [B0]).find? (fun o => o.id == t.id) = some tP := by
    rw [List.append_assoc, List.find?_append, hfindP]
    rfl
  -- step 5: rename the target aside to "<name>_Processed"
  set nP := renamedName (sP ++ [TT] ++ [B0]) t.id (t.name ++ "_Processed") with hnP
  have e5 : renameId (sP ++ [TT] ++ [B0]) t.id (t.name ++ "_Processed")
      = sP.map (fun o => if o.id == t.id then { o with name := nP } else o) ++ [TT] ++ [B0] := by
    rw [renameId_found hfind5]
    rw [List.map_append, List.map_append]
    congr 1
    · congr 1
      apply map_eq_self_of
      intro o ho
      simp only [List.mem_singleton] at ho
      rw [ho]
      have hne : ¬(TT.id = t.id) := by
        rw [hTTid]
        omega
      simp [hne]
    · apply map_eq_self_of
      intro o ho
      simp only [List.mem_singleton] at ho
      rw [ho]
      have hne : ¬(B0.id = t.id) := by
        rw [hB0id]
        omega
      simp [hne]
  rw [e5]
  set SQ := sP.map (fun o => if o.id == t.id then { o with name := nP } else o) with hSQ
  have hmaxSQ : maxId SQ = maxId s := by
    rw [hSQ]
    rw [maxId_map_guard_name sP t.id (fun o => { o with name := nP }) (fun o => rfl)]
    rw [hsP, maxId_setMesh]
  have hm2 : maxId (SQ ++ [TT] ++ [B0]) = maxId s + 1 + 1 := by
    rw [maxId_append, maxId_append, hmaxSQ, hTT, hB0]
    simp [maxId_cons, maxId]
  rw [hm2]
  set nA := freshName (SQ ++ [TT] ++ [B0]) pA with hnA
  set A0 : Obj := (⟨maxId s + 1 + 1 + 1, nA, t.otype, mAD⟩ : Obj) with hA0
  have hSQle : ∀ o ∈ SQ, o.id ≤ maxId s := ids_le_of_maxId (le_of_eq hmaxSQ)
  -- step 6: post-processing of part A (when non-empty)
  set mAP := postIf kern mAD with hmAP
  set mBP := postIf kern mBI with hmBP
  set A1 : Obj := (⟨maxId s + 1 + 1 + 1, nA, t.otype, mAP⟩ : Obj) with hA1
  have hXA : ∀ o ∈ SQ ++ [TT] ++ [B0], o.id ≠ maxId s + 1 + 1 + 1 := by
    intro o ho
    rcases List.mem_append.mp ho with ho' | ho'
    · rcases List.mem_append.mp ho' with h2 | h2
      · have := hSQle o h2
        omega
      · simp only [List.mem_singleton] at h2
        rw [h2, hTTid]
        omega
    · simp only [List.mem_singleton] at ho'
      rw [ho', hB0id]
      omega
  have e6 : (if mAD.verts > 0 then
        setMesh (SQ ++ [TT] ++ [B0] ++ [A0]) (maxId s + 1 + 1 + 1) (kern.postprocess mAD)
      else SQ ++ [TT] ++ [B0] ++ [A0]) = SQ ++ [TT] ++ [B0] ++ [A1] := by
    by_cases hc : mAD.verts > 0
    · rw [if_pos hc, setMesh_append, setMesh_not_mem hXA]
      congr 1
      rw [show (maxId s + 1 + 1 + 1) = (A0 : Obj).id from rfl]
      rw [show ([A0] : Scene) = ([] : Scene) ++ A0 :: [] from rfl]
      rw [setMesh_append_mid [] [] A0 _ (by simp) (by simp)]
      simp only [List.nil_append]
      simp [hA1, hA0, hmAP, postIf, hc]
    · rw [if_neg hc]
      have hAeq : A1 = A0 := by
        simp [hA1, hA0, hmAP, postIf, hc]
      rw [hAeq]
  rw [e6]
  -- step 7: post-processing of part B (when non-empty)
  set B1 : Obj := (⟨maxId s + 1 + 1, nB, t.otype, mBP⟩ : Obj) with hB1
  have hXB : ∀ o ∈ SQ ++ [TT], o.id ≠ maxId s + 1 + 1 := by
    intro o ho
    rcases List.mem_append.mp ho with h2 | h2
    · have := hSQle o h2
      omega
    · simp only [List.mem_singleton] at h2
      rw [h2, hTTid]
      omega
  have e7 : (if mBI.verts > 0 then
        setMesh (SQ ++ [TT] ++ [B0] ++ [A1]) (maxId s + 1 + 1) (kern.postprocess mBI)
      else SQ ++ [TT] ++ [B0] ++ [A1]) = SQ ++ [TT] ++ [B1] ++ [A1] := by
    by_cases hc : mBI.verts > 0
    · rw [if_pos hc, setMesh_append, setMesh_append, setMesh_not_mem hXB]
      congr 2
      · rw [show (maxId s + 1 + 1) = (B0 : Obj).id from rfl]
        rw [show ([B0] : Scene) = ([] : Scene) ++ B0 :: [] from rfl]
        rw [setMesh_append_mid [] [] B0 _ (by simp) (by simp)]
        simp only [List.nil_append]
        simp [hB1, hB0, hmBP, postIf, hc]
      · apply setMesh_not_mem
        intro o ho
        simp only [List.mem_singleton] at ho
        have hA1id : A1.id = maxId s + 1 + 1 + 1 := rfl
        rw [ho, hA1id]
        omega
    · rw [if_neg hc]
      have hBeq : B1 = B0 := by
        simp [hB1, hB0, hmBP, postIf, hc]
      rw [hBeq]
  rw [e7]
  -- step 8: rename part A to its scratch name
  set nTA := freshName (SQ ++ [TT] ++ [B1]) ("Temp_Part_A_" ++ toString rid) with hnTA
  set A2 : Obj := (⟨maxId s + 1 + 1 + 1, nTA, t.otype, mAP⟩ : Obj) with hA2
  have hXA1 : ∀ o ∈ SQ ++ [TT] ++ [B1], o.id ≠ maxId s + 1 + 1 + 1 := by
    intro o ho
    rcases List.mem_append.mp ho with ho' | ho'
    · rcases List.mem_append.mp ho' with h2 | h2
      · have := hSQle o h2
        omega
      · simp only [List.mem_singleton] at h2
        rw [h2, hTTid]
        omega
    · simp only [List.mem_singleton] at ho'
      have hB1id : B1.id = maxId s + 1 + 1 := rfl
      rw [ho', hB1id]
      omega
  have e8 : renameId (SQ ++ [TT] ++ [B1] ++ [A1]) (maxId s + 1 + 1 + 1)
      ("Temp_Part_A_" ++ toString rid) = SQ ++ [TT] ++ [B1] ++ [A2] := by
    rw [show (maxId s + 1 + 1 + 1) = (A1 : Obj).id from rfl]
    rw [show (SQ ++ [TT] ++ [B1] ++ [A1]) = (SQ ++ [TT] ++ [B1]) ++ A1 :: [] from rfl]
    rw [renameId_append_mid _ [] A1 _ hXA1 (by simp)]
    simp only [List.append_nil]
  rw [e8]
  -- step 9: rename part B to its scratch name
  set nTB := freshName ((SQ ++ [TT]) ++ [A2]) ("Temp_Part_B_" ++ toString rid) with hnTB
  set B2 : Obj := (⟨maxId s + 1 + 1, nTB, t.otype, mBP⟩ : Obj) with hB2
  have e9 : renameId (SQ ++ [TT] ++ [B1] ++ [A2]) (maxId s + 1 + 1)
      ("Temp_Part_B_" ++ toString rid) = SQ ++ [TT] ++ [B2] ++ [A2] := by
    rw [show (maxId s + 1 + 1) = (B1 : Obj).id from rfl]
    rw [show (SQ ++ [TT] ++ [B1] ++ [A2]) = (SQ ++ [TT]) ++ B1 :: [A2] from by simp]
    rw [renameId_append_mid (SQ ++ [TT]) [A2] B1 _ hXB (by
      intro o ho
      simp only [List.mem_singleton] at ho
      have hA2id : A2.id = maxId s + 1 + 1 + 1 := rfl
      have hB1id : B1.id = maxId s + 1 + 1 := rfl
      rw [ho, hA2id, hB1id]
      omega)]
    rw [show (SQ ++ [TT] ++ [B2] ++ [A2]) = (SQ ++ [TT]) ++ B2 :: [A2] from by simp]
  rw [e9]
  -- tail: stale deletion, final renames, parent and tool removal
  set S9 := SQ ++ [TT] ++ [B2] ++ [A2] with hS9
  set S10 := removeHolder S9 pA with hS10
  set S11 := removeHolder S10 pB with hS11
  -- well-formedness at every stage
  have hWdup : WF (s ++ [(⟨maxId s + 1, freshName s cutter.name, cutter.otype,
      cutter.mesh⟩ : Obj)]) :=
    WF_append_one hWF hids0 (freshName_not_taken s cutter.name)
  have hW2 : WF (s ++ [(⟨maxId s + 1, freshName s "Cutter_Tool_Temp", cutter.otype,
      cutter.mesh⟩ : Obj)]) := by
    rw [← e1]
    exact WF_renameId hWdup
  have hW3 : WF (s ++ [TT]) := by
    rw [← e2]
    exact WF_setMesh hW2
  have hW4 : WF (sP ++ [TT]) := by
    rw [← e3]
    exact WF_setMesh hW3
  have hW5 : WF (sP ++ [TT] ++ [B0]) := by
    apply WF_append_one hW4
    · intro o ho
      have h1 : o.id ≤ maxId (sP ++ [TT]) := le_maxId ho
      rw [hm1] at h1
      rw [hB0id]
      omega
    · exact freshName_not_taken (sP ++ [TT]) pB
  have hW6 : WF (SQ ++ [TT] ++ [B0]) := by
    rw [← e5]
    exact WF_renameId hW5
  have hW7 : WF (SQ ++ [TT] ++ [B0] ++ [A0]) := by
    apply WF_append_one hW6
    · intro o ho
      have h1 : o.id ≤ maxId (SQ ++ [TT] ++ [B0]) := le_maxId ho
      rw [hm2] at h1
      have hA0id : A0.id = maxId s + 1 + 1 + 1 := rfl
      rw [hA0id]
      omega
    · exact freshName_not_taken (SQ ++ [TT] ++ [B0]) pA
  have hW8 : WF (SQ ++ [TT] ++ [B0] ++ [A1]) := by
    rw [← e6]
    by_cases hc : mAD.verts > 0
    · rw [if_pos hc]
      exact WF_setMesh hW7
    · rw [if_neg hc]
      exact hW7
  have hW8b : WF (SQ ++ [TT] ++ [B1] ++ [A1]) := by
    rw [← e7]
    by_cases hc : mBI.verts > 0
    · rw [if_pos hc]
      exact WF_setMesh hW8
    · rw [if_neg hc]
      exact hW8
  have hW9a : WF (SQ ++ [TT] ++ [B1] ++ [A2]) := by
    rw [← e8]
    exact WF_renameId hW8b
  have hW9 : WF S9 := by
    rw [← e9]
    exact WF_renameId hW9a
  have hW10 : WF S10 := WF_removeHolder hW9
  have hW11 : WF S11 := WF_removeHolder hW10
  -- after the stale-deletion loop both final names are free
  have hTakenA10 : nameTaken S10 pA = false := by
    rw [hS10]
    exact nameTaken_removeHolder hW9.2
  have hTakenA11 : nameTaken S11 pA = false := by
    rw [hS11]
    exact nameTaken_false_mono (fun o ho => mem_of_mem_removeHolder ho) hTakenA10
  have hTakenB11 : nameTaken S11 pB = false := by
    rw [hS11]
    exact nameTaken_removeHolder hW10.2
  -- the final renames assign exactly the requested names
  set gA := (fun o : Obj => if o.id == maxId s + 1 + 1 + 1 then { o with name := pA } else o)
    with hgA
  set gB := (fun o : Obj => if o.id == maxId s + 1 + 1 then { o with name := pB } else o)
    with hgB
  have hS12 : renameId S11 (maxId s + 1 + 1 + 1) pA = S11.map gA := by
    rcases hf : S11.find? (fun o => o.id == maxId s + 1 + 1 + 1) with _ | a
    · rw [renameId_not_found hf]
      symm
      apply map_eq_self_of
      intro o ho
      have hne := List.find?_eq_none.mp hf o ho
      rw [hgA]
      simp only [Bool.not_eq_true] at hne
      simp [hne]
    · have hfreeA : nameTaken (S11.filter (fun o => !(o.id == maxId s + 1 + 1 + 1))) pA
          = false :=
        nameTaken_false_mono (fun o ho => (List.mem_filter.mp ho).1) hTakenA11
      have hrn : renamedName S11 (maxId s + 1 + 1 + 1) pA = pA := by
        unfold renamedName
        exact freshName_of_not_taken hfreeA
      rw [renameId_found hf, hrn]
  have hW12 : WF (S11.map gA) := by
    rw [← hS12]
    exact WF_renameId hW11
  have hTakenB12 : nameTaken (S11.map gA) pB = false := by
    rw [nameTaken_false_forall]
    intro o ho
    obtain ⟨p, hp, rfl⟩ := List.mem_map.mp ho
    rw [hgA]
    by_cases hid : p.id = maxId s + 1 + 1 + 1
    · simp only [hid, beq_self_eq_true, if_true]
      exact fun hcontra => hAB hcontra
    · simp only [hid, beq_iff_eq, if_false, if_neg hid]
      rw [nameTaken_false_forall] at hTakenB11
      exact hTakenB11 p hp
  have hS13 : renameId (S11.map gA) (maxId s + 1 + 1) pB = (S11.map gA).map gB := by
    rcases hf : (S11.map gA).find? (fun o => o.id == maxId s + 1 + 1) with _ | a
    · rw [renameId_not_found hf]
      symm
      apply map_eq_self_of
      intro o ho
      have hne := List.find?_eq_none.mp hf o ho
      rw [hgB]
      simp only [Bool.not_eq_true] at hne
      simp [hne]
    · have hfreeB : nameTaken ((S11.map gA).filter (fun o => !(o.id == maxId s + 1 + 1))) pB
          = false :=
        nameTaken_false_mono (fun o ho => (List.mem_filter.mp ho).1) hTakenB12
      have hrn : renamedName (S11.map gA) (maxId s + 1 + 1) pB = pB := by
        unfold renamedName
        exact freshName_of_not_taken hfreeB
      rw [renameId_found hf, hrn]
  have hW13 : WF ((S11.map gA).map gB) := by
    rw [← hS13]
    exact WF_renameId hW12
  rw [hS12, hS13]
  have hWSF : WF (removeId (removeId ((S11.map gA).map gB) t.id) (maxId s + 1)) :=
    WF_removeId (WF_removeId hW13)
  -- membership in the final scene
  have hgid : ∀ o : Obj, (gB (gA o)).id = o.id := by
    intro o
    rw [hgA, hgB]
    by_cases h1 : o.id = maxId s + 1 + 1 + 1 <;> by_cases h2 : o.id = maxId s + 1 + 1 <;>
      simp [h1, h2]
  have hmemSF : ∀ o ∈ removeId (removeId ((S11.map gA).map gB) t.id) (maxId s + 1),
      ∃ p ∈ S11, o = gB (gA p) ∧ p.id ≠ t.id ∧ p.id ≠ maxId s + 1 := by
    intro o ho
    obtain ⟨h1, hne1⟩ := mem_removeId.mp ho
    obtain ⟨h2, hne2⟩ := mem_removeId.mp h1
    obtain ⟨q, hq, rfl⟩ := List.mem_map.mp h2
    obtain ⟨p, hp, rfl⟩ := List.mem_map.mp hq
    refine ⟨p, hp, rfl, ?_, ?_⟩
    · rw [hgid p] at hne2
      exact hne2
    · rw [hgid p] at hne1
      exact hne1
  have hS11subS9 : ∀ o ∈ S11, o ∈ S9 := by
    intro o ho
    rw [hS11] at ho
    have h1 := mem_of_mem_removeHolder ho
    rw [hS10] at h1
    exact mem_of_mem_removeHolder h1
  -- characterize the healed-and-renamed prefix SQ
  have hSQchar : ∀ o ∈ SQ, o.id = t.id ∨
      ∃ x ∈ s, x.id ≠ t.id ∧ o.name = x.name ∧ o.id = x.id := by
    intro o ho
    rw [hSQ] at ho
    obtain ⟨p, hp, rfl⟩ := List.mem_map.mp ho
    rw [hsP] at hp
    unfold setMesh at hp
    obtain ⟨x, hx, rfl⟩ := List.mem_map.mp hp
    by_cases hxid : x.id = t.id
    · left
      simp [hxid]
    · right
      exact ⟨x, hx, hxid, by simp [hxid], by simp [hxid]⟩
  have hS9mem : ∀ o ∈ S9, o ∈ SQ ∨ o = TT ∨ o = B2 ∨ o = A2 := by
    intro o ho
    rw [hS9] at ho
    rcases List.mem_append.mp ho with h1 | h1
    · rcases List.mem_append.mp h1 with h2 | h2
      · rcases List.mem_append.mp h2 with h3 | h3
        · exact Or.inl h3
        · simp only [List.mem_singleton] at h3
          exact Or.inr (Or.inl h3)
      · simp only [List.mem_singleton] at h2
        exact Or.inr (Or.inr (Or.inl h2))
    · simp only [List.mem_singleton] at h1
      exact Or.inr (Or.inr (Or.inr h1))
  have hA2id : A2.id = maxId s + 1 + 1 + 1 := rfl
  have hB2id : B2.id = maxId s + 1 + 1 := rfl
  have hA2name : A2.name = nTA := rfl
  have hB2name : B2.name = nTB := rfl
  -- names in SQ other than the target slot are original scene names
  have hSQname_ne_t : ∀ o ∈ SQ, o.id ≠ t.id → o.name ≠ t.name := by
    intro o ho hne
    rcases hSQchar o ho with h | ⟨x, hx, hxid, hname, hid⟩
    · exact absurd h hne
    · rw [hname]
      intro hcontra
      have : x = t := obj_eq_of_name_eq hWF.2 hx ht hcontra
      rw [this] at hxid
      exact hxid rfl
  have hgname_low : ∀ p : Obj, p.id ≠ maxId s + 1 + 1 + 1 → p.id ≠ maxId s + 1 + 1 →
      (gB (gA p)).name = p.name := by
    intro p h1 h2
    rw [hgA, hgB]
    simp [h1, h2]
  refine ⟨hWSF, ?_, ?_, ?_, ?_, ?_, ?_⟩
  · -- no object keeps the target's name
    intro o ho
    obtain ⟨p, hp, rfl, hpt, hpM1⟩ := hmemSF o ho
    have hpS9 := hS11subS9 p hp
    rcases hS9mem p hpS9 with hin | hin | hin | hin
    · by_cases hidA : p.id = maxId s + 1 + 1 + 1
      · have := hSQle p hin
        omega
      · by_cases hidB : p.id = maxId s + 1 + 1
        · have := hSQle p hin
          omega
        · rw [hgname_low p hidA hidB]
          exact hSQname_ne_t p hin hpt
    · rw [hin, hTTid] at hpM1
      exact absurd rfl hpM1
    · rw [hin]
      have hne1 : B2.id ≠ maxId s + 1 + 1 + 1 := by
        rw [hB2id]
        omega
      rw [hgA, hgB]
      simp [hne1, hB2id]
      exact fun hcontra => hTB hcontra.symm
    · rw [hin]
      rw [hgA, hgB]
      simp [hA2id]
      exact fun hcontra => hTA hcontra.symm
  · -- the target object itself is gone
    intro o ho
    obtain ⟨p, hp, rfl, hpt, hpM1⟩ := hmemSF o ho
    rw [hgid p]
    exact hpt
  · -- stale holders of the final names are gone
    intro x hx hxname o ho
    obtain ⟨p, hp, rfl, hpt, hpM1⟩ := hmemSF o ho
    rw [hgid p]
    have hxt : x.id ≠ t.id := by
      intro hcontra
      have : x = t := obj_eq_of_id_eq hWF.1 hx ht hcontra
      rcases hxname with h | h
      · rw [this] at h
        exact hTA h
      · rw [this] at h
        exact hTB h
    have hxSP : x ∈ sP := by
      rw [hsP]
      unfold setMesh
      refine List.mem_map.mpr ⟨x, hx, ?_⟩
      simp [hxt]
    have hxSQ : x ∈ SQ := by
      rw [hSQ]
      refine List.mem_map.mpr ⟨x, hxSP, ?_⟩
      simp [hxt]
    have hxS9 : x ∈ S9 := by
      rw [hS9]
      exact List.mem_append.mpr (Or.inl (List.mem_append.mpr (Or.inl
        (List.mem_append.mpr (Or.inl hxSQ)))))
    rcases hxname with hxn | hxn
    · have hrm := removeHolder_removes hW9.2 hxS9 hxn
      have hpS10 : p ∈ S10 := by
        rw [hS11] at hp
        exact mem_of_mem_removeHolder hp
      rw [hS10] at hpS10
      exact hrm p hpS10
    · have hxS10 : x ∈ S10 := by
        rw [hS10]
        exact mem_removeHolder_of_ne hW9.1 hxS9 (by rw [hxn]; exact fun h => hAB h.symm)
      have hrm := removeHolder_removes hW10.2 hxS10 hxn
      rw [hS11] at hp
      exact hrm p hp
  · -- the holder of part_a_name, when present, is the fresh difference output
    by_cases hA2in : A2 ∈ S11
    · right
      have hAFin : gB (gA A2) = (⟨maxId s + 1 + 1 + 1, pA, t.otype, mAP⟩ : Obj) := by
        rw [hgA, hgB, hA2]
        simp
      refine ⟨(⟨maxId s + 1 + 1 + 1, pA, t.otype, mAP⟩ : Obj), ?_,
        by show maxId s < maxId s + 1 + 1 + 1; omega, rfl, ?_⟩
      · have hmem : (⟨maxId s + 1 + 1 + 1, pA, t.otype, mAP⟩ : Obj)
            ∈ removeId (removeId ((S11.map gA).map gB) t.id) (maxId s + 1) := by
          apply mem_removeId.mpr
          refine ⟨mem_removeId.mpr ⟨?_, by show maxId s + 1 + 1 + 1 ≠ t.id; omega⟩,
            by show maxId s + 1 + 1 + 1 ≠ maxId s + 1; omega⟩
          rw [← hAFin]
          exact List.mem_map.mpr ⟨gA A2, List.mem_map.mpr ⟨A2, hA2in, rfl⟩, rfl⟩
        have := lookup_eq_some_of_mem hWSF.2 hmem
        simpa using this
      · rw [partAMeshOf, hmAP, hmAD, hpm, htoolM]
    · left
      rw [lookup_none_iff]
      intro o ho
      obtain ⟨p, hp, rfl, hpt, hpM1⟩ := hmemSF o ho
      by_cases hidA : p.id = maxId s + 1 + 1 + 1
      · have hpS9 := hS11subS9 p hp
        have hA2S9 : A2 ∈ S9 := by
          rw [hS9]
          simp
        have : p = A2 := obj_eq_of_id_eq hW9.1 hpS9 hA2S9 (by rw [hidA, hA2id])
        rw [this] at hp
        exact absurd hp hA2in
      · by_cases hidB : p.id = maxId s + 1 + 1
        · rw [hgA, hgB]
          simp [hidA, hidB]
          exact fun hcontra => hAB hcontra.symm
        · rw [hgname_low p hidA hidB]
          rw [nameTaken_false_forall] at hTakenA11
          exact hTakenA11 p hp
  · -- the holder of part_b_name, when present, is the fresh intersect output
    by_cases hB2in : B2 ∈ S11
    · right
      have hBFin : gB (gA B2) = (⟨maxId s + 1 + 1, pB, t.otype, mBP⟩ : Obj) := by
        rw [hgA, hgB, hB2]
        have hne : ¬((maxId s + 1 + 1 : Nat) = maxId s + 1 + 1 + 1) := by omega
        simp [hne]
      refine ⟨(⟨maxId s + 1 + 1, pB, t.otype, mBP⟩ : Obj), ?_,
        by show maxId s < maxId s + 1 + 1; omega, rfl, ?_⟩
      · have hmem : (⟨maxId s + 1 + 1, pB, t.otype, mBP⟩ : Obj)
            ∈ removeId (removeId ((S11.map gA).map gB) t.id) (maxId s + 1) := by
          apply mem_removeId.mpr
          refine ⟨mem_removeId.mpr ⟨?_, by show maxId s + 1 + 1 ≠ t.id; omega⟩,
            by show maxId s + 1 + 1 ≠ maxId s + 1; omega⟩
          rw [← hBFin]
          exact List.mem_map.mpr ⟨gA B2, List.mem_map.mpr ⟨B2, hB2in, rfl⟩, rfl⟩
        have := lookup_eq_some_of_mem hWSF.2 hmem
        simpa using this
      · rw [partBMeshOf, hmBP, hmBI, hpm, htoolM]
    · left
      rw [lookup_none_iff]
      intro o ho
      obtain ⟨p, hp, rfl, hpt, hpM1⟩ := hmemSF o ho
      by_cases hidB : p.id = maxId s + 1 + 1
      · have hpS9 := hS11subS9 p hp
        have hB2S9 : B2 ∈ S9 := by
          rw [hS9]
          simp
        have : p = B2 := obj_eq_of_id_eq hW9.1 hpS9 hB2S9 (by rw [hidB, hB2id])
        rw [this] at hp
        exact absurd hp hB2in
      · by_cases hidA : p.id = maxId s + 1 + 1 + 1
        · rw [hgA, hgB]
          simp [hidA, hidB]
          exact fun hcontra => hAB hcontra
        · rw [hgname_low p hidA hidB]
          rw [nameTaken_false_forall] at hTakenB11
          exact hTakenB11 p hp
  · -- trace: intersect first, then difference (closed during rewriting)
    trivial


/-! ### From `cut` down to `ctc_body` -/

theorem mem_of_mem_cleanup {o : Obj} {s : Scene} (h : o ∈ cleanup_debris s) : o ∈ s :=
  (List.mem_filter.mp h).1

theorem not_debris_of_mem_cleanup {o : Obj} {s : Scene} (h : o ∈ cleanup_debris s) :
    isDebrisName o.name = false := by
  have h2 := (List.mem_filter.mp h).2
  simpa using h2

theorem WF_cleanup_debris {s : Scene} (h : WF s) : WF (cleanup_debris s) := by
  have hsub : List.Sublist (cleanup_debris s) s := List.filter_sublist s
  exact ⟨List.Nodup.sublist (List.Sublist.map (fun o => o.id) hsub) h.1,
    List.Nodup.sublist (List.Sublist.map (fun o => o.name) hsub) h.2⟩

theorem no_dotzero_of_mem_cleanup {o : Obj} {s : Scene} (h : o ∈ cleanup_debris s) :
    hasSubstr o.name ".00" = false := by
  have h2 := not_debris_of_mem_cleanup h
  unfold isDebrisName at h2
  simp only [Bool.or_eq_false_iff] at h2
  exact h2.2

theorem ctc_checks (kern : Kernel) (rid : Nat) (s1 : Scene) (cid tid : Nat)
    (C t : Obj) (pA pB : String)
    (hfc : s1.find? (fun o => o.id == cid) = some C) (hCm : C.otype = ObjType.MESH)
    (hft : s1.find? (fun o => o.id == tid) = some t) (htm : t.otype = ObjType.MESH)
    (hne : ¬(tid = cid)) :
    create_textured_cut kern rid s1 cid tid pA pB = ctc_body kern rid s1 C t pA pB := by
  unfold create_textured_cut
  rw [hfc]
  dsimp only
  rw [if_neg (by simp [hCm])]
  rw [hft]
  dsimp only
  rw [if_neg (by simp [hne, htm])]

theorem cut_spec (kern : Kernel) (rid : Nat) (cm : Mesh) (s : Scene)
    (tn pA pB : String) (t : Obj)
    (hWF : WF s) (hT : lookup s tn = some t)
    (hAB : pA ≠ pB) (hTA : tn ≠ pA) (hTB : tn ≠ pB)
    (hsucc : (cut kern rid cm s tn pA pB).2 = true) :
    WF (cut kern rid cm s tn pA pB).1 ∧
    lookup (cut kern rid cm s tn pA pB).1 tn = none ∧
    (∀ x ∈ s, (x.name = pA ∨ x.name = pB) →
      ∀ o ∈ (cut kern rid cm s tn pA pB).1, o.id ≠ x.id) ∧
    ∃ p1 p2, lookup (cut kern rid cm s tn pA pB).1 pA = some p1 ∧
      lookup (cut kern rid cm s tn pA pB).1 pB = some p2 ∧
      p1.mesh.verts ≠ 0 ∧ p2.mesh.verts ≠ 0 ∧ p1 ≠ p2 ∧ p1.id ≠ p2.id ∧
      maxId s < p1.id ∧ maxId s < p2.id ∧
      p1.mesh = partAMeshOf kern cm t.mesh ∧ p2.mesh = partBMeshOf kern cm t.mesh := by
  obtain ⟨htmem, htn⟩ := lookup_some hT
  have htle : t.id ≤ maxId s := le_maxId htmem
  have hids0 : ∀ o ∈ s, o.id ≠ maxId s + 1 := fun o ho => id_ne_succ_maxId ho
  have hmesh : t.otype = ObjType.MESH := by
    by_contra hc
    unfold cut at hsucc
    rw [hT] at hsucc
    dsimp only at hsucc
    rw [if_pos hc] at hsucc
    simp at hsucc
  have hverts : t.mesh.verts ≠ 0 := by
    by_contra hc
    have hc2 : t.mesh.verts = 0 := hc
    unfold cut at hsucc
    rw [hT] at hsucc
    dsimp only at hsucc
    rw [if_neg (by simp [hmesh]), if_pos (by simp [hc2])] at hsucc
    simp at hsucc
  have hv0 : (t.mesh.verts == 0) = false := by simpa using hverts
  have hm0 : ¬(t.otype ≠ ObjType.MESH) := by simp [hmesh]
  have hfc : (s ++ [(⟨maxId s + 1, freshName s "Auto_Cutter", ObjType.MESH, cm⟩ : Obj)]).find?
      (fun o => o.id == maxId s + 1)
      = some (⟨maxId s + 1, freshName s "Auto_Cutter", ObjType.MESH, cm⟩ : Obj) := by
    rw [List.find?_append, find?_id_eq_none hids0]
    simp
  have hft : (s ++ [(⟨maxId s + 1, freshName s "Auto_Cutter", ObjType.MESH, cm⟩ : Obj)]).find?
      (fun o => o.id == t.id) = some t := by
    rw [List.find?_append, find?_id_eq_some_of_mem hWF.1 htmem]
    rfl
  have hctc := ctc_checks kern rid
    (s ++ [(⟨maxId s + 1, freshName s "Auto_Cutter", ObjType.MESH, cm⟩ : Obj)])
    (maxId s + 1) t.id (⟨maxId s + 1, freshName s "Auto_Cutter", ObjType.MESH, cm⟩ : Obj)
    t pA pB hfc rfl hft hmesh (by omega)
  unfold cut at hsucc ⊢
  rw [hT] at hsucc ⊢
  dsimp only at hsucc ⊢
  rw [if_neg hm0] at hsucc ⊢
  rw [hv0] at hsucc ⊢
  simp only [Bool.false_eq_true, if_false] at hsucc ⊢
  rw [hctc] at hsucc ⊢
  -- the conclusions of the body-level specification
  have hWF1 : WF (s ++ [(⟨maxId s + 1, freshName s "Auto_Cutter", ObjType.MESH, cm⟩ : Obj)]) :=
    WF_append_one hWF hids0 (freshName_not_taken s "Auto_Cutter")
  have ht1 : t ∈ s ++ [(⟨maxId s + 1, freshName s "Auto_Cutter", ObjType.MESH, cm⟩ : Obj)] :=
    List.mem_append.mpr (Or.inl htmem)
  have hTA' : t.name ≠ pA := by rw [htn]; exact hTA
  have hTB' : t.name ≠ pB := by rw [htn]; exact hTB
  obtain ⟨hWR, hNameR, _, hStaleR, hLA, hLB, _⟩ := ctc_spec kern rid
    (s ++ [(⟨maxId s + 1, freshName s "Auto_Cutter", ObjType.MESH, cm⟩ : Obj)])
    (⟨maxId s + 1, freshName s "Auto_Cutter", ObjType.MESH, cm⟩ : Obj)
    t pA pB hWF1 ht1 hAB hTA' hTB'
  set R := (ctc_body kern rid
    (s ++ [(⟨maxId s + 1, freshName s "Auto_Cutter", ObjType.MESH, cm⟩ : Obj)])
    (⟨maxId s + 1, freshName s "Auto_Cutter", ObjType.MESH, cm⟩ : Obj) t pA pB).scene with hR
  set s3 := cleanup_debris (removeId R (maxId s + 1)) with hs3
  have hsub3 : ∀ o ∈ s3, o ∈ R := by
    intro o ho
    rw [hs3] at ho
    exact (mem_removeId.mp (mem_of_mem_cleanup ho)).1
  have hWF3 : WF s3 := by
    rw [hs3]
    exact WF_cleanup_debris (WF_removeId hWR)
  have hmax1 : maxId (s ++ [(⟨maxId s + 1, freshName s "Auto_Cutter", ObjType.MESH,
      cm⟩ : Obj)]) = maxId s + 1 := by
    rw [maxId_append]
    simp [maxId_cons, maxId]
  rcases hlA : lookup s3 pA with _ | p1
  · rw [hlA] at hsucc
    dsimp only at hsucc
    simp at hsucc
  rcases hlB : lookup s3 pB with _ | p2
  · rw [hlA, hlB] at hsucc
    dsimp only at hsucc
    simp at hsucc
  rw [hlA, hlB] at hsucc
  dsimp only at hsucc ⊢
  by_cases hv1 : (p1.mesh.verts == 0) = true
  · rw [if_pos hv1] at hsucc
    simp at hsucc
  rw [if_neg hv1] at hsucc ⊢
  by_cases hv2 : (p2.mesh.verts == 0) = true
  · rw [if_pos hv2] at hsucc
    simp at hsucc
  rw [if_neg hv2] at hsucc ⊢
  simp only []
  obtain ⟨hp1mem, hp1name⟩ := lookup_some hlA
  obtain ⟨hp2mem, hp2name⟩ := lookup_some hlB
  have hp1R : p1 ∈ R := hsub3 p1 hp1mem
  have hp2R : p2 ∈ R := hsub3 p2 hp2mem
  -- connect to the ctc-level holder characterizations
  have hp1char : maxId s + 1 < p1.id ∧ p1.mesh = partAMeshOf kern cm t.mesh := by
    rcases hLA with hnone | ⟨a, ha, haid, _, hamesh⟩
    · rw [lookup_none_iff] at hnone
      exact absurd hp1name (hnone p1 hp1R)
    · obtain ⟨haR, haname⟩ := lookup_some ha
      have : p1 = a := obj_eq_of_name_eq hWR.2 hp1R haR (by rw [hp1name, haname])
      rw [this, hmax1] at *
      exact ⟨by omega, by rw [hamesh]⟩
  have hp2char : maxId s + 1 < p2.id ∧ p2.mesh = partBMeshOf kern cm t.mesh := by
    rcases hLB with hnone | ⟨b, hb, hbid, _, hbmesh⟩
    · rw [lookup_none_iff] at hnone
      exact absurd hp2name (hnone p2 hp2R)
    · obtain ⟨hbR, hbname⟩ := lookup_some hb
      have : p2 = b := obj_eq_of_name_eq hWR.2 hp2R hbR (by rw [hp2name, hbname])
      rw [this, hmax1] at *
      exact ⟨by omega, by rw [hbmesh]⟩
  have hne12 : p1 ≠ p2 := by
    intro hcontra
    rw [hcontra, hp2name] at hp1name
    exact hAB hp1name.symm
  refine ⟨hWF3, ?_, ?_, p1, p2, hlA, hlB, by simpa using hv1, by simpa using hv2,
    hne12, ?_, by omega, by omega, hp1char.2, hp2char.2⟩
  · rw [lookup_none_iff]
    intro o ho
    rw [← htn]
    exact hNameR o (hsub3 o ho)
  · intro x hx hxname o ho
    exact hStaleR x (List.mem_append.mpr (Or.inl hx)) hxname o (hsub3 o ho)
  · intro hcontra
    exact hne12 (obj_eq_of_id_eq hWF3.1 hp1mem hp2mem hcontra)


/-! ### Claim C1 — solver fallback condition -/

/-- C1 (counterexample): at a concrete input the EXACT solver returns a
non-empty result that is dimensionally identical to the original target —
the claim says such a result fails validation and must be retried with the
FLOAT solver, but `perform_robust_boolean` keeps the EXACT result. -/
theorem c1_counterexample :
    ((kernelFull.booleanOp BoolOp.INTERSECT Solver.EXACT meshT meshC).verts > 0 ∧
      (kernelFull.booleanOp BoolOp.INTERSECT Solver.EXACT meshT meshC).dims = meshT.dims) ∧
    (perform_robust_boolean kernelFull sceneT (⟨1, "T", ObjType.MESH, meshT⟩ : Obj) meshC
      BoolOp.INTERSECT "B").usedSolver = Solver.EXACT := by
  decide

/-- C1 (amended): inside `perform_robust_boolean` the EXACT attempt is
discarded and retried with the FLOAT solver against a fresh duplicate of the
target exactly when the EXACT result has zero vertices; a non-empty result
that is dimensionally identical to the target is kept (the dimension check
of lines 243-251 and 260 happens afterwards and only logs). -/
theorem c1_amended (kern : Kernel) (s : Scene) (τ : Obj) (toolM : Mesh)
    (op : BoolOp) (pn : String) :
    (perform_robust_boolean kern s τ toolM op pn).usedSolver = Solver.FLOAT ↔
      (kern.booleanOp op Solver.EXACT τ.mesh toolM).verts = 0 := by
  rw [prb_eq]
  dsimp only
  unfold prbSolver
  by_cases h : (kern.booleanOp op Solver.EXACT τ.mesh toolM).verts > 0
  · simp [h]
    omega
  · simp [h]
    omega

/-! ### Claim C7 — solidify thickness is a fixed constant -/

/-- C7 (counterexample): for a target of extent 40 along the cut axis the
fixed 50-unit solidify thickness is below 1.5 times the extent, so the
claimed bound does not hold "regardless of the target's size". -/
theorem c7_counterexample :
    ¬ ((3 / 2 : ℚ) * 40 ≤ solidifyThicknessFor 40) := by
  norm_num [solidifyThicknessFor]

/-- C7 (amended): the solidify thickness of the tool is the fixed constant
50.0 (line 95), independent of the target; it is at least 1.5 times the
target's extent along the cut axis exactly when that extent is at most
100/3 ≈ 33.3 units — which holds for the ~30-unit guitar body the constant
was chosen for, but not for arbitrary targets. -/
theorem c7_amended (e : ℚ) (_he : 0 ≤ e) :
    (∀ e2 : ℚ, solidifyThicknessFor e = solidifyThicknessFor e2) ∧
    ((3 / 2 : ℚ) * e ≤ solidifyThicknessFor e ↔ e ≤ 100 / 3) := by
  refine ⟨fun e2 => rfl, ?_⟩
  unfold solidifyThicknessFor
  constructor
  · intro h
    linarith
  · intro h
    linarith

/-- C7 (witness): the amended statement at the guitar body's ~30-unit
extent. -/
theorem c7_witness :
    (0 : ℚ) ≤ 30 ∧
    ((∀ e2 : ℚ, solidifyThicknessFor 30 = solidifyThicknessFor e2) ∧
      ((3 / 2 : ℚ) * 30 ≤ solidifyThicknessFor 30 ↔ (30 : ℚ) ≤ 100 / 3)) :=
  ⟨by norm_num, c7_amended 30 (by norm_num)⟩

/-! ### Claim C8 — the debris sweep is idempotent -/

/-- C8: running `cleanup_debris` twice leaves the scene exactly as running
it once — the second sweep deletes nothing. -/
theorem c8_cleanup_idempotent (s : Scene) :
    cleanup_debris (cleanup_debris s) = cleanup_debris s := by
  unfold cleanup_debris
  rw [List.filter_filter]
  simp only [Bool.and_self]

/-! ### Claim C9 — failed validation leaves the scene untouched -/

/-- C9: when the target is absent, is not a mesh, or has zero vertices,
`cut` returns `False` with the scene unchanged (no object is created,
deleted or renamed). -/
theorem c9_validation_no_mutation (kern : Kernel) (rid : Nat) (cm : Mesh)
    (s : Scene) (tn pA pB : String)
    (h : lookup s tn = none ∨
      ∃ t, lookup s tn = some t ∧ (t.otype ≠ ObjType.MESH ∨ t.mesh.verts = 0)) :
    cut kern rid cm s tn pA pB = (s, false) := by
  unfold cut
  rcases h with h | ⟨t, ht, hcase⟩
  · rw [h]
  · rw [ht]
    dsimp only
    by_cases hm : t.otype ≠ ObjType.MESH
    · rw [if_pos hm]
    · rw [if_neg hm]
      rcases hcase with hc | hc
      · exact absurd hc hm
      · rw [if_pos (by simp [hc])]

/-- C9 (witness): a scene without the requested target is returned
unchanged with `False`. -/
theorem c9_witness :
    lookup ([] : Scene) "T" = none ∧
    cut kernelW 0 meshC ([] : Scene) "T" "A" "B" = (([] : Scene), false) :=
  ⟨by decide, c9_validation_no_mutation kernelW 0 meshC [] "T" "A" "B" (Or.inl (by decide))⟩

/-! ### Claim C10 — the ".00" sweep -/

/-- C10 (counterexample): when the target is absent, `cut` returns before
invoking the debris sweep, so a pre-existing object whose name contains
".00" survives — the sweep does not run on every failure path. -/
theorem c10_counterexample :
    cut kernelW 7 meshC [(⟨1, "X.001", ObjType.MESH, meshT⟩ : Obj)] "T" "A" "B"
      = ([(⟨1, "X.001", ObjType.MESH, meshT⟩ : Obj)], false) ∧
    hasSubstr "X.001" ".00" = true := by
  decide

/-- C10 (amended): after every call of `cut` that passes the initial target
validation (target present, a mesh, non-empty), no object whose name
contains ".00" remains in the scene — the debris sweep runs on the success
path and on the post-validation failure paths and removes every such
object, including pre-existing ones unrelated to the pipeline. -/
theorem c10_amended (kern : Kernel) (rid : Nat) (cm : Mesh) (s : Scene)
    (tn pA pB : String) (t : Obj)
    (hT : lookup s tn = some t) (hm : t.otype = ObjType.MESH)
    (hv : t.mesh.verts ≠ 0) :
    ∀ o ∈ (cut kern rid cm s tn pA pB).1, hasSubstr o.name ".00" = false := by
  unfold cut
  rw [hT]
  dsimp only
  rw [if_neg (by simp [hm])]
  have hv0 : (t.mesh.verts == 0) = false := by simpa using hv
  rw [hv0]
  simp only [Bool.false_eq_true, if_false]
  split
  · split
    · intro o ho
      exact no_dotzero_of_mem_cleanup ho
    · split
      · intro o ho
        exact no_dotzero_of_mem_cleanup ho
      · intro o ho
        exact no_dotzero_of_mem_cleanup ho
  · intro o ho
    exact no_dotzero_of_mem_cleanup ho
  · intro o ho
    exact no_dotzero_of_mem_cleanup ho

/-- C10 (witness): the amended statement at a concrete scene and target. -/
theorem c10_witness :
    lookup sceneT "T" = some (⟨1, "T", ObjType.MESH, meshT⟩ : Obj) ∧
    (⟨1, "T", ObjType.MESH, meshT⟩ : Obj).otype = ObjType.MESH ∧
    (⟨1, "T", ObjType.MESH, meshT⟩ : Obj).mesh.verts ≠ 0 ∧
    ∀ o ∈ (cut kernelW 7 meshC sceneT "T" "A" "B").1, hasSubstr o.name ".00" = false :=
  ⟨by decide, by decide, by decide,
    c10_amended kernelW 7 meshC sceneT "T" "A" "B" (⟨1, "T", ObjType.MESH, meshT⟩ : Obj)
      (by decide) (by decide) (by decide)⟩


/-! ### Claim C2 — name invariant after a successful cut -/

/-- C2 (counterexample): a call with `part_a_name` equal to `target_name`
returns `True`, yet an object named `target_name` (the fresh part A) still
exists afterwards — the claim fails without a distinctness requirement on
the three names. -/
theorem c2_counterexample :
    (cut kernelW 7 meshC sceneT "T" "T" "B").2 = true ∧
    nameTaken (cut kernelW 7 meshC sceneT "T" "T" "B").1 "T" = true := by
  decide

/-- C2 (amended): for every call of `cut` with `target_name`, `part_a_name`
and `part_b_name` pairwise distinct that returns `True`, afterwards no
object named `target_name` exists, and the two part names resolve to
distinct solids with nonzero geometry.  The scene is assumed well-formed
(unique names and object identities), which the Blender host guarantees. -/
theorem c2_amended (kern : Kernel) (rid : Nat) (cm : Mesh) (s : Scene)
    (tn pA pB : String)
    (hWF : WF s) (hAB : pA ≠ pB) (hTA : tn ≠ pA) (hTB : tn ≠ pB)
    (hsucc : (cut kern rid cm s tn pA pB).2 = true) :
    lookup (cut kern rid cm s tn pA pB).1 tn = none ∧
    ∃ p1 p2, lookup (cut kern rid cm s tn pA pB).1 pA = some p1 ∧
      lookup (cut kern rid cm s tn pA pB).1 pB = some p2 ∧
      p1 ≠ p2 ∧ p1.mesh.verts ≠ 0 ∧ p2.mesh.verts ≠ 0 := by
  rcases hT : lookup s tn with _ | t
  · exfalso
    unfold cut at hsucc
    rw [hT] at hsucc
    dsimp only at hsucc
    simp at hsucc
  · obtain ⟨_, hnone, _, p1, p2, h1, h2, hv1, hv2, hne, _, _, _, _, _⟩ :=
      cut_spec kern rid cm s tn pA pB t hWF hT hAB hTA hTB hsucc
    exact ⟨hnone, p1, p2, h1, h2, hne, hv1, hv2⟩

/-- C2 (witness): the amended statement at a concrete successful cut. -/
theorem c2_witness :
    WF sceneT ∧ "A" ≠ "B" ∧ "T" ≠ "A" ∧ "T" ≠ "B" ∧
    (cut kernelW 7 meshC sceneT "T" "A" "B").2 = true ∧
    (lookup (cut kernelW 7 meshC sceneT "T" "A" "B").1 "T" = none ∧
      ∃ p1 p2, lookup (cut kernelW 7 meshC sceneT "T" "A" "B").1 "A" = some p1 ∧
        lookup (cut kernelW 7 meshC sceneT "T" "A" "B").1 "B" = some p2 ∧
        p1 ≠ p2 ∧ p1.mesh.verts ≠ 0 ∧ p2.mesh.verts ≠ 0) :=
  ⟨⟨by decide, by decide⟩, by decide, by decide, by decide, by decide,
    c2_amended kernelW 7 meshC sceneT "T" "A" "B" ⟨by decide, by decide⟩ (by decide)
      (by decide) (by decide) (by decide)⟩

/-! ### Claim C3 — fixed A/B role convention -/

/-- C3: for every successful cut, the solid finally named `part_a_name`
carries exactly the mesh produced by the DIFFERENCE pipeline and the solid
named `part_b_name` the mesh produced by the INTERSECT pipeline; the
assignment is this fixed formula for every kernel, cutter placement and
target geometry, so it never depends on the parts' spatial positions (the
position-based swap of lines 306-317 of the source is disabled). -/
theorem c3_fixed_roles (kern : Kernel) (rid : Nat) (cm : Mesh) (s : Scene)
    (tn pA pB : String) (t : Obj)
    (hWF : WF s) (hT : lookup s tn = some t)
    (hAB : pA ≠ pB) (hTA : tn ≠ pA) (hTB : tn ≠ pB)
    (hsucc : (cut kern rid cm s tn pA pB).2 = true) :
    ∃ p1 p2, lookup (cut kern rid cm s tn pA pB).1 pA = some p1 ∧
      lookup (cut kern rid cm s tn pA pB).1 pB = some p2 ∧
      p1.mesh = partAMeshOf kern cm t.mesh ∧
      p2.mesh = partBMeshOf kern cm t.mesh ∧
      partAMeshOf kern cm t.mesh
        = postIf kern (prbMesh kern BoolOp.DIFFERENCE (kern.precondition t.mesh)
            (kern.synthTool cm)) ∧
      partBMeshOf kern cm t.mesh
        = postIf kern (prbMesh kern BoolOp.INTERSECT (kern.precondition t.mesh)
            (kern.synthTool cm)) := by
  obtain ⟨_, _, _, p1, p2, h1, h2, _, _, _, _, _, _, hmA, hmB⟩ :=
    cut_spec kern rid cm s tn pA pB t hWF hT hAB hTA hTB hsucc
  exact ⟨p1, p2, h1, h2, hmA, hmB, rfl, rfl⟩

/-- C3 (witness): the fixed-role statement at a concrete successful cut. -/
theorem c3_witness :
    WF sceneT ∧ lookup sceneT "T" = some (⟨1, "T", ObjType.MESH, meshT⟩ : Obj) ∧
    (cut kernelW 7 meshC sceneT "T" "A" "B").2 = true ∧
    ∃ p1 p2, lookup (cut kernelW 7 meshC sceneT "T" "A" "B").1 "A" = some p1 ∧
      lookup (cut kernelW 7 meshC sceneT "T" "A" "B").1 "B" = some p2 ∧
      p1.mesh = partAMeshOf kernelW meshC (⟨1, "T", ObjType.MESH, meshT⟩ : Obj).mesh ∧
      p2.mesh = partBMeshOf kernelW meshC (⟨1, "T", ObjType.MESH, meshT⟩ : Obj).mesh ∧
      partAMeshOf kernelW meshC (⟨1, "T", ObjType.MESH, meshT⟩ : Obj).mesh
        = postIf kernelW (prbMesh kernelW BoolOp.DIFFERENCE
            (kernelW.precondition (⟨1, "T", ObjType.MESH, meshT⟩ : Obj).mesh)
            (kernelW.synthTool meshC)) ∧
      partBMeshOf kernelW meshC (⟨1, "T", ObjType.MESH, meshT⟩ : Obj).mesh
        = postIf kernelW (prbMesh kernelW BoolOp.INTERSECT
            (kernelW.precondition (⟨1, "T", ObjType.MESH, meshT⟩ : Obj).mesh)
            (kernelW.synthTool meshC)) :=
  ⟨⟨by decide, by decide⟩, by decide, by decide,
    c3_fixed_roles kernelW 7 meshC sceneT "T" "A" "B" (⟨1, "T", ObjType.MESH, meshT⟩ : Obj)
      ⟨by decide, by decide⟩ (by decide) (by decide) (by decide) (by decide) (by decide)⟩

/-! ### Claim C4 — intersect first, difference independent -/

theorem prbTrace_ne_nil (kern : Kernel) (op : BoolOp) (tm toolM : Mesh) :
    prbTrace kern op tm toolM ≠ [] := by
  unfold prbTrace
  split <;> simp

theorem prbTrace_all_op (kern : Kernel) (op : BoolOp) (tm toolM : Mesh) :
    ∀ p ∈ prbTrace kern op tm toolM, p.1 = op := by
  unfold prbTrace
  split
  · intro p hp
    simp only [List.mem_singleton] at hp
    rw [hp]
  · intro p hp
    rcases List.mem_cons.mp hp with h | h
    · rw [h]
    · simp only [List.mem_singleton] at h
      rw [h]

theorem ctc_body_trace (kern : Kernel) (rid : Nat) (s : Scene) (cutter t : Obj)
    (pA pB : String) :
    (ctc_body kern rid s cutter t pA pB).trace =
      prbTrace kern BoolOp.INTERSECT (kern.precondition t.mesh) (kern.synthTool cutter.mesh) ++
      prbTrace kern BoolOp.DIFFERENCE (kern.precondition t.mesh) (kern.synthTool cutter.mesh) := by
  simp only [ctc_body, prb_eq]

/-- C4: in every run of `create_textured_cut`, all INTERSECT solver
invocations (computing part B) precede all DIFFERENCE invocations
(computing part A); part A's mesh is the DIFFERENCE of the healed original
target mesh against the tool (`partAMeshOf`), not a function of part B's
result: two kernels agreeing on DIFFERENCE, healing, tool synthesis and
post-processing produce the same part A however their INTERSECT differs. -/
theorem c4_intersect_first (kern : Kernel) (rid : Nat) (s1 : Scene) (cid tid : Nat)
    (C t : Obj) (pA pB : String)
    (hfc : s1.find? (fun o => o.id == cid) = some C) (hCm : C.otype = ObjType.MESH)
    (hft : s1.find? (fun o => o.id == tid) = some t) (htm : t.otype = ObjType.MESH)
    (hne : ¬(tid = cid)) :
    (∃ tB tA, (create_textured_cut kern rid s1 cid tid pA pB).trace = tB ++ tA ∧
      tB ≠ [] ∧ tA ≠ [] ∧ (∀ p ∈ tB, p.1 = BoolOp.INTERSECT) ∧
      (∀ p ∈ tA, p.1 = BoolOp.DIFFERENCE)) ∧
    (∀ kern2 : Kernel,
      kern2.booleanOp BoolOp.DIFFERENCE = kern.booleanOp BoolOp.DIFFERENCE →
      kern2.synthTool = kern.synthTool → kern2.precondition = kern.precondition →
      kern2.postprocess = kern.postprocess →
      partAMeshOf kern2 C.mesh t.mesh = partAMeshOf kern C.mesh t.mesh) ∧
    partAMeshOf kern C.mesh t.mesh
      = postIf kern (prbMesh kern BoolOp.DIFFERENCE (kern.precondition t.mesh)
          (kern.synthTool C.mesh)) := by
  refine ⟨?_, ?_, rfl⟩
  · rw [ctc_checks kern rid s1 cid tid C t pA pB hfc hCm hft htm hne, ctc_body_trace]
    exact ⟨_, _, rfl, prbTrace_ne_nil kern BoolOp.INTERSECT _ _,
      prbTrace_ne_nil kern BoolOp.DIFFERENCE _ _,
      prbTrace_all_op kern BoolOp.INTERSECT _ _,
      prbTrace_all_op kern BoolOp.DIFFERENCE _ _⟩
  · intro kern2 h1 h2 h3 h4
    unfold partAMeshOf postIf prbMesh
    rw [h1, h2, h3, h4]

/-- C4 (witness): the statement at a concrete scene with cutter and
target. -/
theorem c4_witness :
    ([(⟨1, "T", ObjType.MESH, meshT⟩ : Obj), (⟨2, "C", ObjType.MESH, meshC⟩ : Obj)].find?
      (fun o => o.id == 2) = some (⟨2, "C", ObjType.MESH, meshC⟩ : Obj)) ∧
    ([(⟨1, "T", ObjType.MESH, meshT⟩ : Obj), (⟨2, "C", ObjType.MESH, meshC⟩ : Obj)].find?
      (fun o => o.id == 1) = some (⟨1, "T", ObjType.MESH, meshT⟩ : Obj)) ∧
    ((∃ tB tA, (create_textured_cut kernelW 7
        [(⟨1, "T", ObjType.MESH, meshT⟩ : Obj), (⟨2, "C", ObjType.MESH, meshC⟩ : Obj)]
        2 1 "A" "B").trace = tB ++ tA ∧
      tB ≠ [] ∧ tA ≠ [] ∧ (∀ p ∈ tB, p.1 = BoolOp.INTERSECT) ∧
      (∀ p ∈ tA, p.1 = BoolOp.DIFFERENCE)) ∧
    (∀ kern2 : Kernel,
      kern2.booleanOp BoolOp.DIFFERENCE = kernelW.booleanOp BoolOp.DIFFERENCE →
      kern2.synthTool = kernelW.synthTool → kern2.precondition = kernelW.precondition →
      kern2.postprocess = kernelW.postprocess →
      partAMeshOf kern2 (⟨2, "C", ObjType.MESH, meshC⟩ : Obj).mesh
          (⟨1, "T", ObjType.MESH, meshT⟩ : Obj).mesh
        = partAMeshOf kernelW (⟨2, "C", ObjType.MESH, meshC⟩ : Obj).mesh
            (⟨1, "T", ObjType.MESH, meshT⟩ : Obj).mesh) ∧
    partAMeshOf kernelW (⟨2, "C", ObjType.MESH, meshC⟩ : Obj).mesh
        (⟨1, "T", ObjType.MESH, meshT⟩ : Obj).mesh
      = postIf kernelW (prbMesh kernelW BoolOp.DIFFERENCE
          (kernelW.precondition (⟨1, "T", ObjType.MESH, meshT⟩ : Obj).mesh)
          (kernelW.synthTool (⟨2, "C", ObjType.MESH, meshC⟩ : Obj).mesh))) :=
  ⟨by decide, by decide,
    c4_intersect_first kernelW 7
      [(⟨1, "T", ObjType.MESH, meshT⟩ : Obj), (⟨2, "C", ObjType.MESH, meshC⟩ : Obj)]
      2 1 (⟨2, "C", ObjType.MESH, meshC⟩ : Obj) (⟨1, "T", ObjType.MESH, meshT⟩ : Obj)
      "A" "B" (by decide) (by decide) (by decide) (by decide) (by decide)⟩

/-! ### Claim C5 — collision-safe renaming -/

/-- C5: for a cut performed in a well-formed scene where `part_a_name` or
`part_b_name` is already held by a stale object `x` distinct from the
target, if the cut succeeds then the stale object is gone, both final names
resolve to objects freshly created by this cut (identities above every
pre-existing one — so neither fresh output was deleted as stale), and each
final name refers only to its corresponding new output. -/
theorem c5_collision_safety (kern : Kernel) (rid : Nat) (cm : Mesh) (s : Scene)
    (tn pA pB : String) (t x : Obj)
    (hWF : WF s) (hT : lookup s tn = some t)
    (hx : x ∈ s) (hxname : x.name = pA ∨ x.name = pB)
    (hAB : pA ≠ pB) (hTA : tn ≠ pA) (hTB : tn ≠ pB)
    (hsucc : (cut kern rid cm s tn pA pB).2 = true) :
    (∀ o ∈ (cut kern rid cm s tn pA pB).1, o.id ≠ x.id) ∧
    ∃ p1 p2, lookup (cut kern rid cm s tn pA pB).1 pA = some p1 ∧
      lookup (cut kern rid cm s tn pA pB).1 pB = some p2 ∧
      maxId s < p1.id ∧ maxId s < p2.id ∧ p1.id ≠ p2.id ∧
      (∀ o ∈ (cut kern rid cm s tn pA pB).1, o.name = pA → o = p1) ∧
      (∀ o ∈ (cut kern rid cm s tn pA pB).1, o.name = pB → o = p2) := by
  obtain ⟨hWF3, _, hstale, p1, p2, h1, h2, _, _, _, hneid, hgt1, hgt2, _, _⟩ :=
    cut_spec kern rid cm s tn pA pB t hWF hT hAB hTA hTB hsucc
  obtain ⟨hp1mem, hp1name⟩ := lookup_some h1
  obtain ⟨hp2mem, hp2name⟩ := lookup_some h2
  refine ⟨hstale x hx hxname, p1, p2, h1, h2, hgt1, hgt2, hneid, ?_, ?_⟩
  · intro o ho hon
    exact obj_eq_of_name_eq hWF3.2 ho hp1mem (by rw [hon, hp1name])
  · intro o ho hon
    exact obj_eq_of_name_eq hWF3.2 ho hp2mem (by rw [hon, hp2name])

/-- C5 (witness): the collision-safety statement at a concrete scene with a
stale holder of the final name "A". -/
theorem c5_witness :
    WF sceneStale ∧
    lookup sceneStale "T" = some (⟨1, "T", ObjType.MESH, meshT⟩ : Obj) ∧
    (⟨2, "A", ObjType.MESH, meshT⟩ : Obj) ∈ sceneStale ∧
    (cut kernelW 7 meshC sceneStale "T" "A" "B").2 = true ∧
    ((∀ o ∈ (cut kernelW 7 meshC sceneStale "T" "A" "B").1,
        o.id ≠ (⟨2, "A", ObjType.MESH, meshT⟩ : Obj).id) ∧
      ∃ p1 p2, lookup (cut kernelW 7 meshC sceneStale "T" "A" "B").1 "A" = some p1 ∧
        lookup (cut kernelW 7 meshC sceneStale "T" "A" "B").1 "B" = some p2 ∧
        maxId sceneStale < p1.id ∧ maxId sceneStale < p2.id ∧ p1.id ≠ p2.id ∧
        (∀ o ∈ (cut kernelW 7 meshC sceneStale "T" "A" "B").1, o.name = "A" → o = p1) ∧
        (∀ o ∈ (cut kernelW 7 meshC sceneStale "T" "A" "B").1, o.name = "B" → o = p2)) :=
  ⟨⟨by decide, by decide⟩, by decide, by decide, by decide,
    c5_collision_safety kernelW 7 meshC sceneStale "T" "A" "B"
      (⟨1, "T", ObjType.MESH, meshT⟩ : Obj) (⟨2, "A", ObjType.MESH, meshT⟩ : Obj)
      ⟨by decide, by decide⟩ (by decide) (by decide) (by decide) (by decide) (by decide)
      (by decide) (by decide)⟩

/-! ### Claim C6 — fail-fast sequencing -/

theorem runCuts_cons (kern : Kernel) (s : Scene) (c : CutSpec) (rid : Nat) (cm : Mesh)
    (rest : List (CutSpec × Nat × Mesh)) :
    runCuts kern s ((c, rid, cm) :: rest)
      = match cut kern rid cm s c.target c.part1 c.part2 with
        | (s', true) =>
          match runCuts kern s' rest with
          | (s'', ok, k) => (s'', ok, k + 1)
        | (s', false) => (s', false, 1) := rfl

/-- C6: in a decomposition sequence run in order (the model of the cut
chain of `setup_scene`, lines 413-444), if the cuts before position k all
succeed and cut number k returns `False`, then the run stops there — the
overall result is failure with exactly k cuts executed, and the result does
not depend on whatever cuts follow position k (they are never executed). -/
theorem c6_failfast (kern : Kernel) (c : CutSpec) (rid : Nat) (cm : Mesh)
    (pre post post' : List (CutSpec × Nat × Mesh)) :
    ∀ (s s1 s2 : Scene), runFirst kern s pre = some s1 →
      cut kern rid cm s1 c.target c.part1 c.part2 = (s2, false) →
      runCuts kern s (pre ++ (c, rid, cm) :: post) = (s2, false, pre.length + 1) ∧
      runCuts kern s (pre ++ (c, rid, cm) :: post)
        = runCuts kern s (pre ++ (c, rid, cm) :: post') := by
  induction pre with
  | nil =>
    intro s s1 s2 hpre hfail
    have hs : s = s1 := by simpa [runFirst] using hpre
    subst hs
    constructor
    · rw [List.nil_append, runCuts_cons, hfail]
      rfl
    · rw [List.nil_append, List.nil_append, runCuts_cons, runCuts_cons, hfail]
  | cons hd tl ih =>
    intro s s1 s2 hpre hfail
    obtain ⟨c0, r0, m0⟩ := hd
    unfold runFirst at hpre
    rcases hc0 : cut kern r0 m0 s c0.target c0.part1 c0.part2 with ⟨s', ok⟩
    rw [hc0] at hpre
    cases ok
    · dsimp only at hpre
      exact absurd hpre (by simp)
    · dsimp only at hpre
      obtain ⟨ih1, ih2⟩ := ih s' s1 s2 hpre hfail
      constructor
      · rw [List.cons_append, runCuts_cons, hc0]
        dsimp only
        rw [ih1]
        rfl
      · rw [List.cons_append, List.cons_append, runCuts_cons, runCuts_cons, hc0]
        dsimp only
        rw [ih2]

/-- C6 (witness): a one-element prefix-free sequence whose first cut fails
on the empty scene: the failing cut stops the run, the reported result is
failure with one cut executed, and the trailing specification is never
run. -/
theorem c6_witness :
    runFirst kernelW ([] : Scene) [] = some [] ∧
    cut kernelW 0 meshC ([] : Scene) "X" "A" "B" = (([] : Scene), false) ∧
    (runCuts kernelW ([] : Scene)
        ([] ++ ((⟨"X", "A", "B"⟩ : CutSpec), 0, meshC) ::
          [((⟨"Y", "C", "D"⟩ : CutSpec), 0, meshC)])
      = (([] : Scene), false, List.length ([] : List (CutSpec × Nat × Mesh)) + 1) ∧
    runCuts kernelW ([] : Scene)
        ([] ++ ((⟨"X", "A", "B"⟩ : CutSpec), 0, meshC) ::
          [((⟨"Y", "C", "D"⟩ : CutSpec), 0, meshC)])
      = runCuts kernelW ([] : Scene)
          ([] ++ ((⟨"X", "A", "B"⟩ : CutSpec), 0, meshC) :: [])) :=
  ⟨rfl, by decide,
    c6_failfast kernelW (⟨"X", "A", "B"⟩ : CutSpec) 0 meshC []
      [((⟨"Y", "C", "D"⟩ : CutSpec), 0, meshC)] [] ([] : Scene) ([] : Scene) ([] : Scene)
      rfl (by decide)⟩

end GuitarBuilder
